import Mathlib

/-!
# Thread synchronisation demos: the download pipeline

A shallow embedding of `thread_synchronization/main.cpp`, and of the two
internally synchronised classes of `working_with_shared_data/main.cpp`.

The three thread entry points `fetch_data`, `progress_bar` and `process_data`
are embedded as step functions over one global `State`: every statement that
touches a shared variable, a mutex, the condition variable or the console is one
atomic step, identified by a program counter.  The interleaving semantics is the
step relation `step`; a schedule is a list of `Action`s.

The model is untimed: `sleep_for` is a step without effect, a timed wait may time
out whenever the thread is blocked in it, and a blocked thread may also be woken
spuriously.

The file has two parts.  The definitions come first: the model of the trio
(`ThreadSync`), the program-point predicates of its invariant `Inv`, concrete
schedules, the control-flow graphs and measures used for termination; the second
pipeline `fetchData`, `progressBar`, `processData` (`Solution`); and the two
reader/writer demos, `reader` and `writer` (`NoPredicate`) and
`reader_with_condition_variable` and `writer_with_condition_variable`
(`WithPredicate`), in which a condition variable is the list of the threads
blocked on it, as in `Solution`; and the classes `ThreadSafeQueue` and
`ThreadSafeVector`, the latter with the three threads that `main` starts on
`func`.  The theorems follow, model by model: preservation of `Inv`, the safety
properties and termination of every fair execution of the trio, the lock
discipline of the second pipeline, the behaviour of the two waits of the
reader/writer demos, and the properties of the two classes.
-/

namespace ThreadSync

/-- The three worker threads started by `main`. -/
inductive Tid
  | fetcher
  | progress
  | processor
  deriving DecidableEq, Repr

/-- Program counter of `fetch_data` (lines 763-804), one value per statement. -/
inductive FPc
  | printStartLock    -- 767  lock_guard print(print_mut)
  | printStartOut     -- 768  cout "Fetching Data..........."
  | printStartUnlock  -- 769  scope exit
  | loopTest          -- 774  i < 5
  | printWaitLock     -- 778
  | printWaitOut      -- 779  cout "Fetcher thread waiting for data......."
  | printWaitUnlock   -- 780
  | sleep             -- 783  sleep_for(2s)
  | lockData          -- 786  lock_guard lock_guard(data_lock)
  | append            -- 788  downloaded_data += "Block" + to_string(i+1)
  | coutData          -- 789  cout "downloaded_data: " << downloaded_data
  | setUpdated        -- 790  string_updated = true
  | notifyOne         -- 792  download_condition_variable.notify_one()
  | unlockData        -- 793  end of the loop body: lock_guard released, ++i
  | printDoneLock     -- 796
  | printDoneOut      -- 797  cout "The download has completed"
  | printDoneUnlock   -- 798
  | lockFinal         -- 799  lock_guard final_lock_guard(data_lock)
  | setComplete       -- 801  download_complete = true
  | notifyAll         -- 803  download_condition_variable.notify_all()
  | unlockFinal       -- 804  function exit: final_lock_guard released
  | done
  deriving DecidableEq, Repr

/-- Program counter of `progress_bar` (lines 806-836). -/
inductive PPc
  | printWaitLock     -- 813
  | printWaitOut      -- 814  cout "Progress thread is waiting for the data......"
  | printWaitUnlock   -- 815
  | lockData          -- 817  unique_lock uniq_lck(data_lock)
  | waitUpdated       -- 818  wait_for(uniq_lck, 2s, string_updated): predicate test
  | blockedUpdated    -- 818  inside wait_for: lock released, blocked on the cv
  | wokenUpdated      -- 818  notified or spuriously woken: re-lock, test again
  | timedOutUpdated   -- 818  2s elapsed: re-lock
  | lastCheckUpdated  -- 818  after the timeout: `return pred()`, result unused
  | readLen           -- 820  len = downloaded_data.size()
  | resetUpdated      -- 822  string_updated = false
  | unlockData        -- 823  uniq_lck.unlock()
  | printLenLock      -- 825
  | printLenOut       -- 826  cout "Received " << len << " bytes so far....."
  | printLenUnlock    -- 827
  | lockFinal         -- 828  unique_lock final_uniq(data_lock)
  | waitComplete      -- 830  wait_for(final_uniq, 10ms, download_complete): test
  | blockedComplete   -- 830  inside wait_for: lock released, blocked on the cv
  | wokenComplete     -- 830  notified or spuriously woken: re-lock, test again
  | timedOutComplete  -- 830  10ms elapsed: re-lock
  | lastCheckComplete -- 830  after the timeout: `return pred()`
  | printEnded        -- 831  cout "Progress bar has ended..."
  | breakUnlock       -- 832  break: final_uniq released on scope exit
  | loopUnlock        -- 835  end of the iteration: final_uniq released
  | done
  deriving DecidableEq, Repr

/-- Program counter of `process_data` (lines 838-851). -/
inductive DPc
  | printWaitLock     -- 840
  | printWaitOut      -- 841  cout "Processing thread waiting for data......"
  | printWaitUnlock   -- 842
  | lockData          -- 843  unique_lock uniq_lck(data_lock)
  | waitComplete      -- 844  wait(uniq_lck, download_complete): predicate test
  | blockedComplete   -- 844  inside wait: lock released, blocked on the cv
  | wokenComplete     -- 844  notified or spuriously woken: re-lock, test again
  | printDataLock     -- 847  lock_guard print_lock(print_mut)
  | printDataOut      -- 848  cout "Processing data: " << downloaded_data
  | printDataUnlock   -- 849
  | unlockData        -- 851  function exit: uniq_lck released
  | done
  deriving DecidableEq, Repr

/-- Global state of the trio: the shared globals of lines 755-761, the locals of
the three threads, and what the run has shown so far (console, the values
assigned to `len`, the string `process_data` read, the number of assignments to
`download_complete`). -/
structure State where
  downloaded_data : String
  string_updated : Bool
  download_complete : Bool
  data_lock : Option Tid
  print_mut : Option Tid
  fpc : FPc
  i : Nat
  ppc : PPc
  len : Nat
  dpc : DPc
  console : List (Tid × String)
  lens : List Nat
  processed : Option String
  completeWrites : Nat
  deriving DecidableEq, Repr

/-- State at the moment `main` has started the three threads. -/
def init : State where
  downloaded_data := ""
  string_updated := false
  download_complete := false
  data_lock := none
  print_mut := none
  fpc := .printStartLock
  i := 0
  ppc := .printWaitLock
  len := 0
  dpc := .printWaitLock
  console := []
  lens := []
  processed := none
  completeWrites := 0

/-- How a thread is scheduled: `go` executes its next statement; `timeout` and
`spurious` end a blocking wait without a notification. -/
inductive Wake
  | go
  | timeout
  | spurious
  deriving DecidableEq, Repr

/-- One scheduling decision.  For the fetcher, `pick` is the thread the
scheduler prefers when `notify_one` finds more than one waiter. -/
inductive Action
  | fetch (pick : Tid)
  | progress (ev : Wake)
  | process (ev : Wake)
  deriving DecidableEq, Repr

/-- Whether `progress_bar` is blocked on `download_condition_variable`. -/
def PPc.blocked : PPc → Bool
  | .blockedUpdated => true
  | .blockedComplete => true
  | _ => false

/-- Whether `process_data` is blocked on `download_condition_variable`. -/
def DPc.blocked : DPc → Bool
  | .blockedComplete => true
  | _ => false

/-- Program counter of `progress_bar` after a wake-up from the cv. -/
def PPc.wake : PPc → PPc
  | .blockedUpdated => .wokenUpdated
  | .blockedComplete => .wokenComplete
  | p => p

/-- Program counter of `process_data` after a wake-up from the cv. -/
def DPc.wake : DPc → DPc
  | .blockedComplete => .wokenComplete
  | p => p

/-- The call `download_condition_variable.notify_all()`: every blocked thread is woken. -/
def notify_all (s : State) : State :=
  { s with ppc := s.ppc.wake, dpc := s.dpc.wake }

/-- The call `download_condition_variable.notify_one()`: one blocked thread, if any,
is woken; `pick` is the scheduler's preference when both are blocked. -/
def notify_one (s : State) (pick : Tid) : State :=
  if s.ppc.blocked && s.dpc.blocked then
    (if pick = .processor then { s with dpc := s.dpc.wake } else { s with ppc := s.ppc.wake })
  else if s.ppc.blocked then { s with ppc := s.ppc.wake }
  else { s with dpc := s.dpc.wake }

/-- Entry test of a predicate-guarded wait, `while (!pred()) ...`: the caller
goes to sleep exactly when the predicate is false. -/
def mustBlock (pred : Bool) : Bool := !pred

/-- One step of `fetch_data`. -/
def fetch_data (s : State) (pick : Tid) : Option State :=
  match s.fpc with
  | .printStartLock =>
      if s.print_mut = none then some { s with print_mut := some .fetcher, fpc := .printStartOut }
      else none
  | .printStartOut =>
      some { s with console := s.console ++ [(.fetcher, "Fetching Data...........")],
                    fpc := .printStartUnlock }
  | .printStartUnlock => some { s with print_mut := none, fpc := .loopTest }
  | .loopTest =>
      if s.i < 5 then some { s with fpc := .printWaitLock }
      else some { s with fpc := .printDoneLock }
  | .printWaitLock =>
      if s.print_mut = none then some { s with print_mut := some .fetcher, fpc := .printWaitOut }
      else none
  | .printWaitOut =>
      some { s with console := s.console ++ [(.fetcher, "Fetcher thread waiting for data.......")],
                    fpc := .printWaitUnlock }
  | .printWaitUnlock => some { s with print_mut := none, fpc := .sleep }
  | .sleep => some { s with fpc := .lockData }
  | .lockData =>
      if s.data_lock = none then some { s with data_lock := some .fetcher, fpc := .append }
      else none
  | .append =>
      some { s with downloaded_data := s.downloaded_data ++ ("Block" ++ toString (s.i + 1)),
                    fpc := .coutData }
  | .coutData =>
      some { s with console := s.console ++ [(.fetcher, "downloaded_data: " ++ s.downloaded_data)],
                    fpc := .setUpdated }
  | .setUpdated => some { s with string_updated := true, fpc := .notifyOne }
  | .notifyOne => some { notify_one s pick with fpc := .unlockData }
  | .unlockData => some { s with data_lock := none, i := s.i + 1, fpc := .loopTest }
  | .printDoneLock =>
      if s.print_mut = none then some { s with print_mut := some .fetcher, fpc := .printDoneOut }
      else none
  | .printDoneOut =>
      some { s with console := s.console ++ [(.fetcher, "The download has completed")],
                    fpc := .printDoneUnlock }
  | .printDoneUnlock => some { s with print_mut := none, fpc := .lockFinal }
  | .lockFinal =>
      if s.data_lock = none then some { s with data_lock := some .fetcher, fpc := .setComplete }
      else none
  | .setComplete =>
      some { s with download_complete := true, completeWrites := s.completeWrites + 1,
                    fpc := .notifyAll }
  | .notifyAll => some { notify_all s with fpc := .unlockFinal }
  | .unlockFinal => some { s with data_lock := none, fpc := .done }
  | .done => none

/-- One step of `progress_bar`. -/
def progress_bar (s : State) (ev : Wake) : Option State :=
  match s.ppc, ev with
  | .printWaitLock, .go =>
      if s.print_mut = none then some { s with print_mut := some .progress, ppc := .printWaitOut }
      else none
  | .printWaitOut, .go =>
      some { s with console := s.console ++
                      [(.progress, "Progress thread is waiting for the data......")],
                    ppc := .printWaitUnlock }
  | .printWaitUnlock, .go => some { s with print_mut := none, ppc := .lockData }
  | .lockData, .go =>
      if s.data_lock = none then some { s with data_lock := some .progress, ppc := .waitUpdated }
      else none
  | .waitUpdated, .go =>
      if mustBlock s.string_updated then some { s with data_lock := none, ppc := .blockedUpdated }
      else some { s with ppc := .readLen }
  | .blockedUpdated, .spurious => some { s with ppc := .wokenUpdated }
  | .blockedUpdated, .timeout => some { s with ppc := .timedOutUpdated }
  | .wokenUpdated, .go =>
      if s.data_lock = none then some { s with data_lock := some .progress, ppc := .waitUpdated }
      else none
  | .timedOutUpdated, .go =>
      if s.data_lock = none then
        some { s with data_lock := some .progress, ppc := .lastCheckUpdated }
      else none
  | .lastCheckUpdated, .go => some { s with ppc := .readLen }
  | .readLen, .go =>
      some { s with len := s.downloaded_data.length,
                    lens := s.lens ++ [s.downloaded_data.length], ppc := .resetUpdated }
  | .resetUpdated, .go => some { s with string_updated := false, ppc := .unlockData }
  | .unlockData, .go => some { s with data_lock := none, ppc := .printLenLock }
  | .printLenLock, .go =>
      if s.print_mut = none then some { s with print_mut := some .progress, ppc := .printLenOut }
      else none
  | .printLenOut, .go =>
      some { s with console := s.console ++
                      [(.progress, "Received " ++ toString s.len ++ " bytes so far.....")],
                    ppc := .printLenUnlock }
  | .printLenUnlock, .go => some { s with print_mut := none, ppc := .lockFinal }
  | .lockFinal, .go =>
      if s.data_lock = none then some { s with data_lock := some .progress, ppc := .waitComplete }
      else none
  | .waitComplete, .go =>
      if mustBlock s.download_complete then
        some { s with data_lock := none, ppc := .blockedComplete }
      else some { s with ppc := .printEnded }
  | .blockedComplete, .spurious => some { s with ppc := .wokenComplete }
  | .blockedComplete, .timeout => some { s with ppc := .timedOutComplete }
  | .wokenComplete, .go =>
      if s.data_lock = none then some { s with data_lock := some .progress, ppc := .waitComplete }
      else none
  | .timedOutComplete, .go =>
      if s.data_lock = none then
        some { s with data_lock := some .progress, ppc := .lastCheckComplete }
      else none
  | .lastCheckComplete, .go =>
      if s.download_complete then some { s with ppc := .printEnded }
      else some { s with ppc := .loopUnlock }
  | .printEnded, .go =>
      some { s with console := s.console ++ [(.progress, "Progress bar has ended...")],
                    ppc := .breakUnlock }
  | .breakUnlock, .go => some { s with data_lock := none, ppc := .done }
  | .loopUnlock, .go => some { s with data_lock := none, ppc := .printWaitLock }
  | _, _ => none

/-- One step of `process_data`. -/
def process_data (s : State) (ev : Wake) : Option State :=
  match s.dpc, ev with
  | .printWaitLock, .go =>
      if s.print_mut = none then some { s with print_mut := some .processor, dpc := .printWaitOut }
      else none
  | .printWaitOut, .go =>
      some { s with console := s.console ++
                      [(.processor, "Processing thread waiting for data......")],
                    dpc := .printWaitUnlock }
  | .printWaitUnlock, .go => some { s with print_mut := none, dpc := .lockData }
  | .lockData, .go =>
      if s.data_lock = none then some { s with data_lock := some .processor, dpc := .waitComplete }
      else none
  | .waitComplete, .go =>
      if mustBlock s.download_complete then
        some { s with data_lock := none, dpc := .blockedComplete }
      else some { s with dpc := .printDataLock }
  | .blockedComplete, .spurious => some { s with dpc := .wokenComplete }
  | .wokenComplete, .go =>
      if s.data_lock = none then some { s with data_lock := some .processor, dpc := .waitComplete }
      else none
  | .printDataLock, .go =>
      if s.print_mut = none then some { s with print_mut := some .processor, dpc := .printDataOut }
      else none
  | .printDataOut, .go =>
      some { s with console := s.console ++
                      [(.processor, "Processing data: " ++ s.downloaded_data)],
                    processed := some s.downloaded_data, dpc := .printDataUnlock }
  | .printDataUnlock, .go => some { s with print_mut := none, dpc := .unlockData }
  | .unlockData, .go => some { s with data_lock := none, dpc := .done }
  | _, _ => none

/-- The interleaving semantics: one step of the thread chosen by the scheduler. -/
def step (s : State) : Action → Option State
  | .fetch pick => fetch_data s pick
  | .progress ev => progress_bar s ev
  | .process ev => process_data s ev

/-- Executes a schedule; `none` when some decision of the schedule is not enabled. -/
def run (s : State) : List Action → Option State
  | [] => some s
  | a :: as => (step s a).bind fun t => run t as

/-- States reachable from `init` under some interleaving. -/
inductive Reachable : State → Prop
  | start : Reachable init
  | next {s t : State} (a : Action) : Reachable s → step s a = some t → Reachable t

/-- All three workers have returned, so the three `join` calls of `main` return. -/
def allDone (s : State) : Bool :=
  s.fpc = .done && s.ppc = .done && s.dpc = .done

/-- Buffer content after `k` completed appends: `Block1 ... Blockk`. -/
def blocks : Nat → String
  | 0 => ""
  | k + 1 => blocks k ++ ("Block" ++ toString (k + 1))

/-! ## Program points and the invariant of the trio -/

/-- Program points at which `fetch_data` owns `data_lock`. -/
def FPc.holdsData : FPc → Bool
  | .append | .coutData | .setUpdated | .notifyOne | .unlockData
  | .setComplete | .notifyAll | .unlockFinal => true
  | _ => false

/-- Program points at which `progress_bar` owns `data_lock`. -/
def PPc.holdsData : PPc → Bool
  | .waitUpdated | .lastCheckUpdated | .readLen | .resetUpdated | .unlockData
  | .waitComplete | .lastCheckComplete | .printEnded | .breakUnlock | .loopUnlock => true
  | _ => false

/-- Program points at which `process_data` owns `data_lock`. -/
def DPc.holdsData : DPc → Bool
  | .waitComplete | .printDataLock | .printDataOut | .printDataUnlock | .unlockData => true
  | _ => false

/-- Program points at which `fetch_data` owns `print_mut`. -/
def FPc.holdsPrint : FPc → Bool
  | .printStartOut | .printStartUnlock | .printWaitOut | .printWaitUnlock
  | .printDoneOut | .printDoneUnlock => true
  | _ => false

/-- Program points at which `progress_bar` owns `print_mut`. -/
def PPc.holdsPrint : PPc → Bool
  | .printWaitOut | .printWaitUnlock | .printLenOut | .printLenUnlock => true
  | _ => false

/-- Program points at which `process_data` owns `print_mut`. -/
def DPc.holdsPrint : DPc → Bool
  | .printWaitOut | .printWaitUnlock | .printDataOut | .printDataUnlock => true
  | _ => false

/-- Number of appends `fetch_data` has performed at a program point with loop variable `i`. -/
def FPc.appended : FPc → Nat → Nat
  | .coutData, i | .setUpdated, i | .notifyOne, i | .unlockData, i => i + 1
  | _, i => i

/-- Range of the loop variable at each program point of `fetch_data`. -/
def FPc.iOk : FPc → Nat → Bool
  | .printStartLock, i | .printStartOut, i | .printStartUnlock, i => i = 0
  | .loopTest, i => i ≤ 5
  | .printWaitLock, i | .printWaitOut, i | .printWaitUnlock, i | .sleep, i | .lockData, i
  | .append, i | .coutData, i | .setUpdated, i | .notifyOne, i | .unlockData, i => i < 5
  | _, i => i = 5

/-- Program points of `fetch_data` after the assignment of line 801. -/
def FPc.completed : FPc → Bool
  | .notifyAll | .unlockFinal | .done => true
  | _ => false

/-- Program points of `fetch_data` after the `notify_all` of line 803. -/
def FPc.notified : FPc → Bool
  | .unlockFinal | .done => true
  | _ => false

/-- Program points of `process_data` after its wait has returned. -/
def DPc.sawComplete : DPc → Bool
  | .printDataLock | .printDataOut | .printDataUnlock | .unlockData | .done => true
  | _ => false

/-- Program points of `process_data` after the read of line 848. -/
def DPc.hasRead : DPc → Bool
  | .printDataUnlock | .unlockData | .done => true
  | _ => false

/-- Program points of `progress_bar` after its completion test has returned true. -/
def PPc.sawComplete : PPc → Bool
  | .printEnded | .breakUnlock | .done => true
  | _ => false

/-- Inductive invariant of the trio. -/
structure Inv (s : State) : Prop where
  lockF : s.data_lock = some .fetcher ↔ s.fpc.holdsData = true
  lockP : s.data_lock = some .progress ↔ s.ppc.holdsData = true
  lockD : s.data_lock = some .processor ↔ s.dpc.holdsData = true
  printF : s.print_mut = some .fetcher ↔ s.fpc.holdsPrint = true
  printP : s.print_mut = some .progress ↔ s.ppc.holdsPrint = true
  printD : s.print_mut = some .processor ↔ s.dpc.holdsPrint = true
  data : s.downloaded_data = blocks (s.fpc.appended s.i)
  iOk : s.fpc.iOk s.i = true
  complete : s.download_complete = s.fpc.completed
  writes : s.completeWrites = if s.download_complete then 1 else 0
  dSaw : s.dpc.sawComplete = true → s.download_complete = true
  pSaw : s.ppc.sawComplete = true → s.download_complete = true
  noMiss : s.fpc.notified = true → s.dpc ≠ .blockedComplete
  processed : s.processed = if s.dpc.hasRead then some (blocks 5) else none
  lensSorted : s.lens.Pairwise (fun a b => a ≤ b)
  lensLe : ∀ x ∈ s.lens, x ≤ s.downloaded_data.length
  lenLast : s.lens.getLast? = some s.len ∨ (s.lens = [] ∧ s.len = 0)

/-- The state `s` with the three shared variables guarded by `data_lock` replaced. -/
def withShared (s : State) (d : String) (u c : Bool) : State :=
  { s with downloaded_data := d, string_updated := u, download_complete := c }

/-- The thread that executes a scheduling decision. -/
def Action.actor : Action → Tid
  | .fetch _ => .fetcher
  | .progress _ => .progress
  | .process _ => .processor

/-! ## Concrete schedules and the states they reach -/

/-- One pass of `progress_bar` from a notification in its first wait to being
blocked again in the first wait of the next iteration, the download not being
complete: 10 statements up to the 10 ms wait, its timeout, 8 statements more. -/
def observerRound : List Action :=
  List.replicate 10 (.progress .go) ++ [.progress .timeout] ++ List.replicate 8 (.progress .go)

/-- A schedule in which `progress_bar` is notified of, and reports, every chunk. -/
def interleavedSchedule : List Action :=
  List.replicate 5 (.progress .go) ++ List.replicate 5 (.process .go) ++
  List.replicate 3 (.fetch .progress) ++
  (List.replicate 11 (.fetch .progress) ++ observerRound) ++
  (List.replicate 11 (.fetch .progress) ++ observerRound) ++
  (List.replicate 11 (.fetch .progress) ++ observerRound) ++
  (List.replicate 11 (.fetch .progress) ++ observerRound) ++
  (List.replicate 11 (.fetch .progress) ++ observerRound) ++
  List.replicate 8 (.fetch .progress) ++
  List.replicate 2 (.progress .go) ++ [.progress .timeout] ++ List.replicate 12 (.progress .go) ++
  List.replicate 6 (.process .go)

/-- A schedule in which the 2 s wait of `progress_bar` times out just before the
last chunk is appended, and the download completes during its 10 ms wait. -/
def staleSchedule : List Action :=
  List.replicate 5 (.progress .go) ++ List.replicate 5 (.process .go) ++
  List.replicate 3 (.fetch .progress) ++
  (List.replicate 11 (.fetch .progress) ++ observerRound) ++
  (List.replicate 11 (.fetch .progress) ++ observerRound) ++
  (List.replicate 11 (.fetch .progress) ++ observerRound) ++
  (List.replicate 11 (.fetch .progress) ++ observerRound) ++
  List.replicate 5 (.fetch .progress) ++
  [.progress .timeout] ++ List.replicate 10 (.progress .go) ++
  List.replicate 6 (.fetch .processor) ++ List.replicate 8 (.fetch .progress) ++
  List.replicate 4 (.progress .go) ++
  List.replicate 6 (.process .go)

/-- Final state of `interleavedSchedule`. -/
def interleavedFinal : State := (run init interleavedSchedule).getD init

/-- Final state of `staleSchedule`. -/
def staleFinal : State := (run init staleSchedule).getD init

/-- State of the trio right after `fetch_data` has executed line 801, with
`progress_bar` and `process_data` not yet started. -/
def justCompleted : State := (run init (List.replicate 64 (.fetch .progress))).getD init

/-- State in which `fetch_data` has returned (both notifications are in the
past) and `process_data`, started late, is about to call `wait`. -/
def lateConsumer : State :=
  (run init (List.replicate 66 (.fetch .progress) ++ List.replicate 4 (.process .go))).getD init

/-- A schedule after which `fetch_data` is inside its first critical section,
about to append, while `progress_bar` is blocked in its 2 s wait. -/
def duringAppendSchedule : List Action :=
  List.replicate 5 (.progress .go) ++ List.replicate 9 (.fetch .progress)

/-- Final state of `duringAppendSchedule`. -/
def duringAppend : State := (run init duringAppendSchedule).getD init

/-- The state `duringAppend` after the 2 s wait of `progress_bar` has timed out. -/
def duringAppendTimedOut : State := (step duringAppend (.progress .timeout)).getD init

/-- A schedule after which `progress_bar` is blocked in its 2 s wait,
`process_data` is blocked in its wait, and `fetch_data` has appended the first
chunk, set `string_updated` and is about to execute line 792. -/
def bothWaitingSchedule : List Action :=
  List.replicate 5 (.progress .go) ++ List.replicate 5 (.process .go) ++
    List.replicate 12 (.fetch .progress)

/-- Final state of `bothWaitingSchedule`. -/
def bothWaiting : State := (run init bothWaitingSchedule).getD init

/-- State in which `fetch_data` is about to execute line 792 for the first time. -/
def beforeNotifyOne : State := (run init (List.replicate 12 (.fetch .progress))).getD init

/-- State in which `fetch_data` is about to execute line 803. -/
def beforeNotifyAll : State := (run init (List.replicate 64 (.fetch .progress))).getD init

/-! ## Control flow, executions and fairness -/

/-- Control flow of `fetch_data`: the program point after a step, `more` being
the outcome of the loop test `i < 5`. -/
def FPc.succ (p : FPc) (more : Bool) : FPc :=
  match p with
  | .printStartLock => .printStartOut
  | .printStartOut => .printStartUnlock
  | .printStartUnlock => .loopTest
  | .loopTest => if more then .printWaitLock else .printDoneLock
  | .printWaitLock => .printWaitOut
  | .printWaitOut => .printWaitUnlock
  | .printWaitUnlock => .sleep
  | .sleep => .lockData
  | .lockData => .append
  | .append => .coutData
  | .coutData => .setUpdated
  | .setUpdated => .notifyOne
  | .notifyOne => .unlockData
  | .unlockData => .loopTest
  | .printDoneLock => .printDoneOut
  | .printDoneOut => .printDoneUnlock
  | .printDoneUnlock => .lockFinal
  | .lockFinal => .setComplete
  | .setComplete => .notifyAll
  | .notifyAll => .unlockFinal
  | .unlockFinal => .done
  | .done => .done

/-- Control flow of `progress_bar`: the program point after a step, given the
two flags its wait predicates read. -/
def PPc.succ (p : PPc) (ev : Wake) (updated complete : Bool) : PPc :=
  match p, ev with
  | .printWaitLock, .go => .printWaitOut
  | .printWaitOut, .go => .printWaitUnlock
  | .printWaitUnlock, .go => .lockData
  | .lockData, .go => .waitUpdated
  | .waitUpdated, .go => if updated then .readLen else .blockedUpdated
  | .blockedUpdated, .spurious => .wokenUpdated
  | .blockedUpdated, .timeout => .timedOutUpdated
  | .wokenUpdated, .go => .waitUpdated
  | .timedOutUpdated, .go => .lastCheckUpdated
  | .lastCheckUpdated, .go => .readLen
  | .readLen, .go => .resetUpdated
  | .resetUpdated, .go => .unlockData
  | .unlockData, .go => .printLenLock
  | .printLenLock, .go => .printLenOut
  | .printLenOut, .go => .printLenUnlock
  | .printLenUnlock, .go => .lockFinal
  | .lockFinal, .go => .waitComplete
  | .waitComplete, .go => if complete then .printEnded else .blockedComplete
  | .blockedComplete, .spurious => .wokenComplete
  | .blockedComplete, .timeout => .timedOutComplete
  | .wokenComplete, .go => .waitComplete
  | .timedOutComplete, .go => .lastCheckComplete
  | .lastCheckComplete, .go => if complete then .printEnded else .loopUnlock
  | .printEnded, .go => .breakUnlock
  | .breakUnlock, .go => .done
  | .loopUnlock, .go => .printWaitLock
  | p, _ => p

/-- Control flow of `process_data`: the program point after a step. -/
def DPc.succ (p : DPc) (ev : Wake) (complete : Bool) : DPc :=
  match p, ev with
  | .printWaitLock, .go => .printWaitOut
  | .printWaitOut, .go => .printWaitUnlock
  | .printWaitUnlock, .go => .lockData
  | .lockData, .go => .waitComplete
  | .waitComplete, .go => if complete then .printDataLock else .blockedComplete
  | .blockedComplete, .spurious => .wokenComplete
  | .wokenComplete, .go => .waitComplete
  | .printDataLock, .go => .printDataOut
  | .printDataOut, .go => .printDataUnlock
  | .printDataUnlock, .go => .unlockData
  | .unlockData, .go => .done
  | p, _ => p

/-- Program points at which `fetch_data` is about to lock `print_mut`. -/
def FPc.wantsPrint : FPc → Bool
  | .printStartLock | .printWaitLock | .printDoneLock => true
  | _ => false

/-- Program points at which `fetch_data` is about to lock `data_lock`. -/
def FPc.wantsData : FPc → Bool
  | .lockData | .lockFinal => true
  | _ => false

/-- Program points at which `progress_bar` is about to lock `print_mut`. -/
def PPc.wantsPrint : PPc → Bool
  | .printWaitLock | .printLenLock => true
  | _ => false

/-- Program points at which `progress_bar` is about to lock `data_lock`. -/
def PPc.wantsData : PPc → Bool
  | .lockData | .wokenUpdated | .timedOutUpdated | .lockFinal | .wokenComplete
  | .timedOutComplete => true
  | _ => false

/-- Program points at which `process_data` is about to lock `print_mut`. -/
def DPc.wantsPrint : DPc → Bool
  | .printWaitLock | .printDataLock => true
  | _ => false

/-- Program points at which `process_data` is about to lock `data_lock`. -/
def DPc.wantsData : DPc → Bool
  | .lockData | .wokenComplete => true
  | _ => false

/-- Decisions the scheduler owes to the threads: executing the next statement of
a thread and letting a timed wait time out.  A spurious wake-up is never owed. -/
def Action.fair : Action → Bool
  | .progress .spurious => false
  | .process .spurious => false
  | _ => true

/-- A schedule after which `fetch_data` is about to execute line 789 while
`progress_bar` is about to execute line 814. -/
def unguardedDataPrintSchedule : List Action :=
  List.replicate 10 (.fetch .progress) ++ [.progress .go]

/-- Final state of `unguardedDataPrintSchedule`. -/
def unguardedDataPrint : State := (run init unguardedDataPrintSchedule).getD init

/-- A schedule after which `progress_bar` is about to execute line 831 while
`process_data`, started late, is about to execute line 841. -/
def unguardedEndPrintSchedule : List Action :=
  List.replicate 66 (.fetch .progress) ++ List.replicate 13 (.progress .go) ++ [.process .go]

/-- Final state of `unguardedEndPrintSchedule`. -/
def unguardedEndPrint : State := (run init unguardedEndPrintSchedule).getD init

/-- A schedule in which `progress_bar` starts first and its 2 s wait times out
before `fetch_data` has appended anything. -/
def earlyTimeoutSchedule : List Action :=
  List.replicate 5 (.progress .go) ++ [.progress .timeout] ++ List.replicate 2 (.progress .go)

/-- Final state of `earlyTimeoutSchedule`: `progress_bar` is at line 820. -/
def earlyTimeout : State := (run init earlyTimeoutSchedule).getD init

/-- State in which `progress_bar` is about to execute line 822, after
`fetch_data` has appended the first chunk. -/
def beforeReset : State :=
  (run init (List.replicate 14 (.fetch .progress) ++ List.replicate 6 (.progress .go))).getD init

/-- The state `beforeReset` after line 822. -/
def afterReset : State := (step beforeReset (.progress .go)).getD init

/-! ## The chunks of the buffer and the update flag -/

/-- The concatenation of `"Block"` followed by the decimal numeral of `i`, for
`i = 1, ..., k` in order. -/
def chunks (k : Nat) : String :=
  String.join ((List.range k).map fun i => "Block" ++ toString (i + 1))

/-- The schedule in which `fetch_data` runs alone up to the loop test that
follows its `k`-th iteration. -/
def iterationsSchedule (k : Nat) : List Action :=
  List.replicate (3 + 11 * k) (.fetch .progress)

/-- State reached by `iterationsSchedule k`. -/
def afterIterations (k : Nat) : State := (run init (iterationsSchedule k)).getD init

/-- Program points of `fetch_data` from the append of line 788 to the end of the
loop body. -/
def FPc.hasAppended : FPc → Bool
  | .coutData | .setUpdated | .notifyOne | .unlockData => true
  | _ => false

/-- Program points of `fetch_data` from the assignment of line 790 to the end of
the loop body. -/
def FPc.hasSet : FPc → Bool
  | .notifyOne | .unlockData => true
  | _ => false

/-- Program points of `progress_bar` between the read of line 820 and the
unlock of line 823. -/
def PPc.hasReadLen : PPc → Bool
  | .resetUpdated | .unlockData => true
  | _ => false

/-- Program point of `progress_bar` between the reset of line 822 and the
unlock of line 823. -/
def PPc.hasReset : PPc → Bool
  | .unlockData => true
  | _ => false

/-- How `string_updated` relates to the growth of the buffer since `len` was
read, outside and inside the critical sections that change them. -/
structure Fresh (s : State) : Prop where
  quiet : s.fpc.hasAppended = false → s.ppc.hasReadLen = false →
    (s.string_updated = true ↔ s.len < s.downloaded_data.length)
  grown : s.fpc.hasAppended = true → s.len < s.downloaded_data.length
  flagSet : s.fpc.hasSet = true → s.string_updated = true
  seen : s.ppc.hasReadLen = true → s.len = s.downloaded_data.length
  flagReset : s.ppc.hasReset = true → s.string_updated = false

end ThreadSync

/-! ## The second pipeline: `fetchData`, `progressBar`, `processData` -/

namespace Solution

/-- Threads of the second pipeline (`fetchData`, `progressBar`, `processData`). -/
inductive Tid
  | fetcher
  | progress
  | processor
  deriving DecidableEq, Repr

/-- Program counter of `fetchData` (lines 872-893). -/
inductive FPc
  | loopTest         -- 874  i < 5
  | coutWait         -- 875  cout "Fetcher thread waiting for data....."
  | sleep            -- 876  sleep_for(2s)
  | lockData         -- 879  unique_lock uniq_lck(dataMutex)
  | append           -- 880  sharedData += "Block" + to_string(i+1)
  | coutData         -- 881  cout "Fetched sharedData: " << sharedData
  | setUpdate        -- 882  updateProgress = true
  | unlockData       -- 883  uniq_lck.unlock()
  | notifyData       -- 884  data_cv.notify_all(), end of the loop body, ++i
  | coutEnded        -- 886  cout "Fetch sharedData has ended"
  | lockCompleted    -- 890  lock_guard lg(completedMutex)
  | setCompleted     -- 891  completedTask = true
  | notifyCompleted  -- 892  completed_cv.notify_all()
  | unlockCompleted  -- 893  function exit: lg released
  | done
  deriving DecidableEq, Repr

/-- Program counter of `progressBar` (lines 897-926). -/
inductive PPc
  | coutWait           -- 902  cout "Progress bar thread waiting for data....."
  | lockData           -- 905  unique_lock data_lck(dataMutex)
  | waitUpdate         -- 906  data_cv.wait(data_lck, updateProgress): predicate test
  | blockedUpdate      -- 906  inside wait: dataMutex released, on data_cv, then re-lock
  | readLen            -- 909  len = sharedData.size()
  | resetUpdate        -- 912  updateProgress = false
  | unlockData         -- 913  data_lck.unlock()
  | coutLen            -- 915  cout "Received " << len << " bytes so far"
  | lockCompleted      -- 918  unique_lock compl_lck(completed_mutex)
  | waitCompleted      -- 921  completed_cv.wait_for(compl_lck, 10ms, completedTask): test
  | blockedCompleted   -- 921  inside wait_for: completed_mutex released, on completed_cv
  | timedOutCompleted  -- 921  10ms elapsed: re-lock
  | lastCheckCompleted -- 921  after the timeout: `return pred()`
  | coutEnded          -- 922  cout "Progress bar thread has ended"
  | breakUnlock        -- 923  break: compl_lck released on scope exit
  | loopUnlock         -- 925  end of the iteration: compl_lck released
  | done
  deriving DecidableEq, Repr

/-- Program counter of `processData` (lines 928-943). -/
inductive DPc
  | sleep             -- 930  sleep_for(200ms)
  | coutWait          -- 931  cout "Processing thread waiting for data...."
  | lockCompleted     -- 934  unique_lock compl_lck(completedMutex)
  | waitCompleted     -- 936  completed_cv.wait(compl_lck, completed): predicate test
  | blockedCompleted  -- 936  inside wait: completedMutex released, on completed_cv
  | unlockCompleted   -- 937  compl_lck.unlock()
  | lockData          -- 939  lock_guard data_lck(dataMutex)
  | coutData          -- 940  cout "Processing sharedData: " << sharedData
  | unlockData        -- 943  function exit: data_lck released
  | done
  deriving DecidableEq, Repr

/-- The globals the second pipeline uses: those of lines 856-868, and `completed`
(line 514) and `completed_mutex` (line 518), which `processData` and
`progressBar` name; the locals of the three threads; the string `processData`
has read.  A condition variable is the list of the threads blocked on it. -/
structure State where
  sharedData : String
  updateProgress : Bool
  completedTask : Bool
  completed : Bool
  dataMutex : Option Tid
  completedMutex : Option Tid
  completed_mutex : Option Tid
  data_cv : List Tid
  completed_cv : List Tid
  fpc : FPc
  i : Nat
  ppc : PPc
  len : Nat
  dpc : DPc
  processed : Option String
  console : List (Tid × String)
  deriving DecidableEq, Repr

/-- State when the threads are started; `waitingData` and `waitingCompleted` are
the threads blocked on the two condition variables. -/
def init (waitingData waitingCompleted : List Tid) : State where
  sharedData := ""
  updateProgress := false
  completedTask := false
  completed := false
  dataMutex := none
  completedMutex := none
  completed_mutex := none
  data_cv := waitingData
  completed_cv := waitingCompleted
  fpc := .loopTest
  i := 0
  ppc := .coutWait
  len := 0
  dpc := .sleep
  processed := none
  console := []

/-- State at the moment the three threads of the second pipeline are started:
no thread is blocked yet. -/
def start : State := init [] []

/-- One step of `fetchData`. -/
def fetchData (s : State) : Option State :=
  match s.fpc with
  | .loopTest =>
      if s.i < 5 then some { s with fpc := .coutWait } else some { s with fpc := .coutEnded }
  | .coutWait =>
      some { s with console := s.console ++ [(.fetcher, "Fetcher thread waiting for data.....")],
                    fpc := .sleep }
  | .sleep => some { s with fpc := .lockData }
  | .lockData =>
      if s.dataMutex = none then some { s with dataMutex := some .fetcher, fpc := .append }
      else none
  | .append =>
      some { s with sharedData := s.sharedData ++ ("Block" ++ toString (s.i + 1)),
                    fpc := .coutData }
  | .coutData =>
      some { s with console := s.console ++ [(.fetcher, "Fetched sharedData: " ++ s.sharedData)],
                    fpc := .setUpdate }
  | .setUpdate => some { s with updateProgress := true, fpc := .unlockData }
  | .unlockData => some { s with dataMutex := none, fpc := .notifyData }
  | .notifyData => some { s with data_cv := [], i := s.i + 1, fpc := .loopTest }
  | .coutEnded =>
      some { s with console := s.console ++ [(.fetcher, "Fetch sharedData has ended")],
                    fpc := .lockCompleted }
  | .lockCompleted =>
      if s.completedMutex = none then
        some { s with completedMutex := some .fetcher, fpc := .setCompleted }
      else none
  | .setCompleted => some { s with completedTask := true, fpc := .notifyCompleted }
  | .notifyCompleted => some { s with completed_cv := [], fpc := .unlockCompleted }
  | .unlockCompleted => some { s with completedMutex := none, fpc := .done }
  | .done => none

/-- One step of `progressBar`.  A thread inside a wait is blocked as long as it
is on the list of the condition variable; once off the list (notified, or woken
spuriously) it locks the mutex again and tests the predicate again. -/
def progressBar (s : State) (ev : ThreadSync.Wake) : Option State :=
  match s.ppc, ev with
  | .coutWait, .go =>
      some { s with console := s.console ++
                      [(.progress, "Progress bar thread waiting for data.....")],
                    ppc := .lockData }
  | .lockData, .go =>
      if s.dataMutex = none then some { s with dataMutex := some .progress, ppc := .waitUpdate }
      else none
  | .waitUpdate, .go =>
      if ThreadSync.mustBlock s.updateProgress then
        some { s with dataMutex := none, data_cv := s.data_cv ++ [.progress],
                      ppc := .blockedUpdate }
      else some { s with ppc := .readLen }
  | .blockedUpdate, .spurious =>
      if Tid.progress ∈ s.data_cv then some { s with data_cv := s.data_cv.erase .progress }
      else none
  | .blockedUpdate, .go =>
      if Tid.progress ∉ s.data_cv ∧ s.dataMutex = none then
        some { s with dataMutex := some .progress, ppc := .waitUpdate }
      else none
  | .readLen, .go => some { s with len := s.sharedData.length, ppc := .resetUpdate }
  | .resetUpdate, .go => some { s with updateProgress := false, ppc := .unlockData }
  | .unlockData, .go => some { s with dataMutex := none, ppc := .coutLen }
  | .coutLen, .go =>
      some { s with console := s.console ++
                      [(.progress, "Received " ++ toString s.len ++ " bytes so far")],
                    ppc := .lockCompleted }
  | .lockCompleted, .go =>
      if s.completed_mutex = none then
        some { s with completed_mutex := some .progress, ppc := .waitCompleted }
      else none
  | .waitCompleted, .go =>
      if ThreadSync.mustBlock s.completedTask then
        some { s with completed_mutex := none, completed_cv := s.completed_cv ++ [.progress],
                      ppc := .blockedCompleted }
      else some { s with ppc := .coutEnded }
  | .blockedCompleted, .spurious =>
      if Tid.progress ∈ s.completed_cv then
        some { s with completed_cv := s.completed_cv.erase .progress }
      else none
  | .blockedCompleted, .timeout =>
      if Tid.progress ∈ s.completed_cv then
        some { s with completed_cv := s.completed_cv.erase .progress,
                      ppc := .timedOutCompleted }
      else none
  | .blockedCompleted, .go =>
      if Tid.progress ∉ s.completed_cv ∧ s.completed_mutex = none then
        some { s with completed_mutex := some .progress, ppc := .waitCompleted }
      else none
  | .timedOutCompleted, .go =>
      if s.completed_mutex = none then
        some { s with completed_mutex := some .progress, ppc := .lastCheckCompleted }
      else none
  | .lastCheckCompleted, .go =>
      if s.completedTask then some { s with ppc := .coutEnded }
      else some { s with ppc := .loopUnlock }
  | .coutEnded, .go =>
      some { s with console := s.console ++ [(.progress, "Progress bar thread has ended")],
                    ppc := .breakUnlock }
  | .breakUnlock, .go => some { s with completed_mutex := none, ppc := .done }
  | .loopUnlock, .go => some { s with completed_mutex := none, ppc := .coutWait }
  | _, _ => none

/-- One step of `processData`. -/
def processData (s : State) (ev : ThreadSync.Wake) : Option State :=
  match s.dpc, ev with
  | .sleep, .go => some { s with dpc := .coutWait }
  | .coutWait, .go =>
      some { s with console := s.console ++
                      [(.processor, "Processing thread waiting for data....")],
                    dpc := .lockCompleted }
  | .lockCompleted, .go =>
      if s.completedMutex = none then
        some { s with completedMutex := some .processor, dpc := .waitCompleted }
      else none
  | .waitCompleted, .go =>
      if ThreadSync.mustBlock s.completed then
        some { s with completedMutex := none, completed_cv := s.completed_cv ++ [.processor],
                      dpc := .blockedCompleted }
      else some { s with dpc := .unlockCompleted }
  | .blockedCompleted, .spurious =>
      if Tid.processor ∈ s.completed_cv then
        some { s with completed_cv := s.completed_cv.erase .processor }
      else none
  | .blockedCompleted, .go =>
      if Tid.processor ∉ s.completed_cv ∧ s.completedMutex = none then
        some { s with completedMutex := some .processor, dpc := .waitCompleted }
      else none
  | .unlockCompleted, .go => some { s with completedMutex := none, dpc := .lockData }
  | .lockData, .go =>
      if s.dataMutex = none then some { s with dataMutex := some .processor, dpc := .coutData }
      else none
  | .coutData, .go =>
      some { s with console := s.console ++
                      [(.processor, "Processing sharedData: " ++ s.sharedData)],
                    processed := some s.sharedData, dpc := .unlockData }
  | .unlockData, .go => some { s with dataMutex := none, dpc := .done }
  | _, _ => none

/-- One scheduling decision for the second pipeline. -/
inductive Action
  | fetch
  | progress (ev : ThreadSync.Wake)
  | process (ev : ThreadSync.Wake)
  deriving DecidableEq, Repr

/-- The thread that executes a scheduling decision. -/
def Action.actor : Action → Tid
  | .fetch => .fetcher
  | .progress _ => .progress
  | .process _ => .processor

/-- The interleaving semantics of the second pipeline. -/
def step (s : State) : Action → Option State
  | .fetch => fetchData s
  | .progress ev => progressBar s ev
  | .process ev => processData s ev

/-- Executes a schedule; `none` when some decision of the schedule is not enabled. -/
def run (s : State) : List Action → Option State
  | [] => some s
  | a :: as => (step s a).bind fun t => run t as

/-- States of the second pipeline reachable from the state `s₀`. -/
inductive ReachableFrom (s₀ : State) : State → Prop
  | start : ReachableFrom s₀ s₀
  | next {s t : State} (a : Action) : ReachableFrom s₀ s → step s a = some t → ReachableFrom s₀ t

/-- The state `start` with the global `completed` of line 514 set to `c`: no
function of the second pipeline assigns this variable. -/
def startWith (c : Bool) : State := { start with completed := c }

/-- Runs `fetchData` for `n` steps. -/
def fetchSteps : Nat → State → Option State
  | 0, s => some s
  | n + 1, s => (fetchData s).bind (fetchSteps n)

/-- State of the second pipeline when `fetchData` is about to execute line 884,
in its first iteration. -/
def beforeNotifyData : State :=
  (fetchSteps 8 (init [.progress] [.processor])).getD (init [] [])

/-- State of the second pipeline when `fetchData` is about to execute line 892. -/
def beforeNotifyCompleted : State :=
  (fetchSteps 49 (init [.progress] [.processor])).getD (init [] [])

/-- Program points at which `fetchData` owns `dataMutex`. -/
def FPc.holdsData : FPc → Bool
  | .append | .coutData | .setUpdate | .unlockData => true
  | _ => false

/-- Program points at which `fetchData` owns `completedMutex`. -/
def FPc.holdsCompleted : FPc → Bool
  | .setCompleted | .notifyCompleted | .unlockCompleted => true
  | _ => false

/-- Program points at which `progressBar` owns `dataMutex`. -/
def PPc.holdsData : PPc → Bool
  | .waitUpdate | .readLen | .resetUpdate | .unlockData => true
  | _ => false

/-- Program points at which `progressBar` owns `completed_mutex`. -/
def PPc.holdsOther : PPc → Bool
  | .waitCompleted | .lastCheckCompleted | .coutEnded | .breakUnlock | .loopUnlock => true
  | _ => false

/-- Program points at which `processData` owns `completedMutex`. -/
def DPc.holdsCompleted : DPc → Bool
  | .waitCompleted | .unlockCompleted => true
  | _ => false

/-- Program points at which `processData` owns `dataMutex`. -/
def DPc.holdsData : DPc → Bool
  | .coutData | .unlockData => true
  | _ => false

/-- Program points at which the next statement of `fetchData` locks a mutex. -/
def FPc.locks : FPc → Bool
  | .lockData | .lockCompleted => true
  | _ => false

/-- Program points at which the next statement of `progressBar` locks a mutex
(the end of a wait included). -/
def PPc.locks : PPc → Bool
  | .lockData | .blockedUpdate | .lockCompleted | .blockedCompleted | .timedOutCompleted => true
  | _ => false

/-- Program points at which the next statement of `processData` locks a mutex
(the end of its wait included). -/
def DPc.locks : DPc → Bool
  | .lockCompleted | .blockedCompleted | .lockData => true
  | _ => false

/-- Whether the next statement of thread `t` locks a mutex. -/
def locks (s : State) : Tid → Bool
  | .fetcher => s.fpc.locks
  | .progress => s.ppc.locks
  | .processor => s.dpc.locks

/-- Number of mutexes owned by thread `t`. -/
def heldBy (s : State) (t : Tid) : Nat :=
  (if s.dataMutex = some t then 1 else 0) + (if s.completedMutex = some t then 1 else 0) +
    (if s.completed_mutex = some t then 1 else 0)

/-- Owners of the three mutexes, by the scopes of the lock objects. -/
structure LockScopes (s : State) : Prop where
  dataF : s.dataMutex = some .fetcher ↔ s.fpc.holdsData = true
  dataP : s.dataMutex = some .progress ↔ s.ppc.holdsData = true
  dataD : s.dataMutex = some .processor ↔ s.dpc.holdsData = true
  complF : s.completedMutex = some .fetcher ↔ s.fpc.holdsCompleted = true
  complP : s.completedMutex ≠ some .progress
  complD : s.completedMutex = some .processor ↔ s.dpc.holdsCompleted = true
  otherF : s.completed_mutex ≠ some .fetcher
  otherP : s.completed_mutex = some .progress ↔ s.ppc.holdsOther = true
  otherD : s.completed_mutex ≠ some .processor

/-- Program points of `processData` after its wait has returned. -/
def DPc.pastWait : DPc → Bool
  | .unlockCompleted | .lockData | .coutData | .unlockData | .done => true
  | _ => false

/-- A schedule in which, `completed` being true at the start, `processData` gets
past its wait, releases `completedMutex` and locks `dataMutex`. -/
def pastWaitSchedule : List Action := List.replicate 6 (.process .go)

/-- Final state of `pastWaitSchedule` from `startWith true`. -/
def pastWait : State := (run (startWith true) pastWaitSchedule).getD start

/-- One pass of `progressBar` from its wake-up on `data_cv` to being blocked on it
again, `completedTask` being false: 8 statements up to the 10 ms wait, its
timeout, 6 statements more. -/
def observerRound : List Action :=
  List.replicate 8 (.progress .go) ++ [.progress .timeout] ++ List.replicate 6 (.progress .go)

/-- A schedule in which `progressBar` reports every chunk and, after the last
one, reaches the test of line 921 while `fetchData` reaches line 891. -/
def racingSchedule : List Action :=
  List.replicate 3 (.progress .go) ++
  (List.replicate 9 .fetch ++ observerRound) ++
  (List.replicate 9 .fetch ++ observerRound) ++
  (List.replicate 9 .fetch ++ observerRound) ++
  (List.replicate 9 .fetch ++ observerRound) ++
  List.replicate 9 .fetch ++ List.replicate 7 (.progress .go) ++ List.replicate 3 .fetch

/-- Final state of `racingSchedule`. -/
def racing : State := (run start racingSchedule).getD start

/-- A schedule in which `processData` blocks in its wait, `fetchData` runs to its
end, and `processData`, woken by the `notify_all` of line 892, tests its
predicate again and blocks again. -/
def producerFinishedSchedule : List Action :=
  List.replicate 4 (.process .go) ++ List.replicate 51 .fetch ++ List.replicate 2 (.process .go)

/-- Final state of `producerFinishedSchedule`. -/
def producerFinished : State := (run start producerFinishedSchedule).getD start

end Solution

/-! ## The wait without a predicate: `reader` and `writer` -/

namespace NoPredicate

/-- The threads of the first condition-variable demo (`reader`, `writer`). -/
inductive Tid
  | reader
  | writer
  deriving DecidableEq, Repr

/-- Program counter of `reader` (lines 556-575). -/
inductive RPc
  | coutLocking   -- 559  cout "Reader thread locking the mutex"
  | lock          -- 560  unique_lock uniq_lck(mut)
  | coutLocked    -- 561  cout "Reader thread has locked the mutex"
  | coutSleeping  -- 566  cout "Reader thread sleeping...."
  | wait          -- 567  cond_var.wait(uniq_lck): mut released, thread on cond_var
  | blocked       -- 567  inside wait, then re-lock
  | coutWakes     -- 571  cout "Reader thread wakes up"
  | coutData      -- 574  cout "Data is " << sdata
  | unlock        -- 575  function exit: uniq_lck released
  | done
  deriving DecidableEq, Repr

/-- Program counter of `writer` (lines 578-600). -/
inductive WPc
  | coutLocking    -- 582  cout "Writer thread locking mutex"
  | lock           -- 587  lock_guard lck_guard(mut)
  | coutLocked     -- 588  cout "Writer thread has locked the mutex"
  | sleep          -- 591  sleep_for(2s)
  | coutModifying  -- 594  cout "Writer thread modifying data...."
  | setData        -- 595  sdata = "populated"
  | unlock         -- 596  scope exit: lck_guard released
  | coutNotify     -- 598  cout "Writer thread sends notification"
  | notifyOne      -- 599  cond_var.notify_one()
  | done
  deriving DecidableEq, Repr

/-- The globals `sdata` (line 510), `mut` (521, here `mutex`: its holder) and
`cond_var` (524), the program counters of the two threads, the string the reader
displayed and the console.  The condition variable is the list of the threads
blocked on it. -/
structure State where
  sdata : String
  mutex : Option Tid
  cond_var : List Tid
  rpc : RPc
  wpc : WPc
  shown : Option String
  console : List (Tid × String)
  deriving DecidableEq, Repr

/-- State when the two threads are started. -/
def init : State where
  sdata := ""
  mutex := none
  cond_var := []
  rpc := .coutLocking
  wpc := .coutLocking
  shown := none
  console := []

/-- One step of `reader`.  The wait has no predicate: the thread goes to sleep
unconditionally, and resumes once it is off the list of `cond_var` (notified, or
woken spuriously) and has locked `mut` again. -/
def reader (s : State) (ev : ThreadSync.Wake) : Option State :=
  match s.rpc, ev with
  | .coutLocking, .go =>
      some { s with console := s.console ++ [(.reader, "Reader thread locking the mutex")],
                    rpc := .lock }
  | .lock, .go =>
      if s.mutex = none then some { s with mutex := some .reader, rpc := .coutLocked } else none
  | .coutLocked, .go =>
      some { s with console := s.console ++ [(.reader, "Reader thread has locked the mutex")],
                    rpc := .coutSleeping }
  | .coutSleeping, .go =>
      some { s with console := s.console ++ [(.reader, "Reader thread sleeping....")],
                    rpc := .wait }
  | .wait, .go =>
      some { s with mutex := none, cond_var := s.cond_var ++ [.reader], rpc := .blocked }
  | .blocked, .spurious =>
      if Tid.reader ∈ s.cond_var then some { s with cond_var := s.cond_var.erase .reader }
      else none
  | .blocked, .go =>
      if Tid.reader ∉ s.cond_var ∧ s.mutex = none then
        some { s with mutex := some .reader, rpc := .coutWakes }
      else none
  | .coutWakes, .go =>
      some { s with console := s.console ++ [(.reader, "Reader thread wakes up")],
                    rpc := .coutData }
  | .coutData, .go =>
      some { s with console := s.console ++ [(.reader, "Data is \"" ++ s.sdata ++ "\" ")],
                    shown := some s.sdata, rpc := .unlock }
  | .unlock, .go => some { s with mutex := none, rpc := .done }
  | _, _ => none

/-- One step of `writer`.  The call `notify_one` takes one thread, if any, off
the list of `cond_var`. -/
def writer (s : State) : Option State :=
  match s.wpc with
  | .coutLocking =>
      some { s with console := s.console ++ [(.writer, "Writer thread locking mutex")],
                    wpc := .lock }
  | .lock =>
      if s.mutex = none then some { s with mutex := some .writer, wpc := .coutLocked } else none
  | .coutLocked =>
      some { s with console := s.console ++ [(.writer, "Writer thread has locked the mutex")],
                    wpc := .sleep }
  | .sleep => some { s with wpc := .coutModifying }
  | .coutModifying =>
      some { s with console := s.console ++ [(.writer, "Writer thread modifying data....")],
                    wpc := .setData }
  | .setData => some { s with sdata := "populated", wpc := .unlock }
  | .unlock => some { s with mutex := none, wpc := .coutNotify }
  | .coutNotify =>
      some { s with console := s.console ++ [(.writer, "Writer thread sends notification")],
                    wpc := .notifyOne }
  | .notifyOne => some { s with cond_var := s.cond_var.tail, wpc := .done }
  | .done => none

/-- One scheduling decision. -/
inductive Action
  | reader (ev : ThreadSync.Wake)
  | writer
  deriving DecidableEq, Repr

/-- The interleaving semantics of `reader` and `writer`. -/
def step (s : State) : Action → Option State
  | .reader ev => reader s ev
  | .writer => writer s

/-- Executes a schedule; `none` when some decision of the schedule is not enabled. -/
def run (s : State) : List Action → Option State
  | [] => some s
  | a :: as => (step s a).bind fun t => run t as

/-- The interleaving in which the writer locks `mut`, sets `sdata`, unlocks and
calls `notify_one` before the reader calls `wait`. -/
def lostWakeupSchedule : List Action :=
  List.replicate 9 .writer ++ List.replicate 5 (.reader .go)

/-- Final state of `lostWakeupSchedule`. -/
def lostWakeup : State := (run init lostWakeupSchedule).getD init

end NoPredicate

/-! ## The wait with a predicate: `reader_with_condition_variable` and
`writer_with_condition_variable` -/

namespace WithPredicate

/-- The threads of the second condition-variable demo
(`reader_with_condition_variable`, `writer_with_condition_variable`). -/
inductive Tid
  | reader
  | writer
  deriving DecidableEq, Repr

/-- Program counter of `reader_with_condition_variable` (lines 702-724). -/
inductive RPc
  | coutLocking   -- 705  cout "Reader thread locking mutex"
  | lock          -- 706  unique_lock uniq_lck(shared_data_mut)
  | coutLocked    -- 707  cout "Reader thread has locked the mutex"
  | coutSleeping  -- 712  cout "Reader thread sleeping....."
  | waitTest      -- 715  cond_var.wait(uniq_lck, condition): predicate test
  | blocked       -- 715  inside wait: mutex released, on cond_var, then re-lock
  | coutWakes     -- 719  cout "Reader thread wakes up"
  | coutData      -- 722  cout "Data is " << shared_data
  | coutUnlocks   -- 723  cout "Reader thread unlocks the mutex"
  | unlock        -- 724  function exit: uniq_lck released
  | done
  deriving DecidableEq, Repr

/-- Program counter of `writer_with_condition_variable` (lines 727-753). -/
inductive WPc
  | coutLocking    -- 731  cout "Writer thread locking the mutex"
  | lock           -- 736  lock_guard lck_guard(shared_data_mut)
  | coutLocked     -- 737  cout "Writer thread has locked the mutex"
  | sleep          -- 740  sleep_for(2s)
  | coutModifying  -- 743  cout "Writer thread modifying data....."
  | setData        -- 744  shared_data = "Populated"
  | setCondition   -- 747  condition = true
  | coutUnlocks    -- 748  cout "Writer thread unlocks the mutex"
  | unlock         -- 749  scope exit: lck_guard released
  | coutNotify     -- 750  cout "Writer thread sends notification"
  | notifyAll      -- 752  cond_variable.notify_all()
  | done
  deriving DecidableEq, Repr

/-- The globals `shared_data` (line 689), `shared_data_mut` (692), `condition`
(698), the two condition variables the functions name, `cond_var` (524) and
`cond_variable` (695), each as the list of the threads blocked on it, the
program counters, the string the reader displayed and the console. -/
structure State where
  shared_data : String
  condition : Bool
  shared_data_mut : Option Tid
  cond_var : List Tid
  cond_variable : List Tid
  rpc : RPc
  wpc : WPc
  shown : Option String
  console : List (Tid × String)
  deriving DecidableEq, Repr

/-- State when the two threads are started. -/
def init : State where
  shared_data := ""
  condition := false
  shared_data_mut := none
  cond_var := []
  cond_variable := []
  rpc := .coutLocking
  wpc := .coutLocking
  shown := none
  console := []

/-- One step of `reader_with_condition_variable`.  The wait is on `cond_var`. -/
def reader_with_condition_variable (s : State) (ev : ThreadSync.Wake) : Option State :=
  match s.rpc, ev with
  | .coutLocking, .go =>
      some { s with console := s.console ++ [(.reader, "Reader thread locking mutex")],
                    rpc := .lock }
  | .lock, .go =>
      if s.shared_data_mut = none then
        some { s with shared_data_mut := some .reader, rpc := .coutLocked }
      else none
  | .coutLocked, .go =>
      some { s with console := s.console ++ [(.reader, "Reader thread has locked the mutex")],
                    rpc := .coutSleeping }
  | .coutSleeping, .go =>
      some { s with console := s.console ++ [(.reader, "Reader thread sleeping.....")],
                    rpc := .waitTest }
  | .waitTest, .go =>
      if ThreadSync.mustBlock s.condition then
        some { s with shared_data_mut := none, cond_var := s.cond_var ++ [.reader],
                      rpc := .blocked }
      else some { s with rpc := .coutWakes }
  | .blocked, .spurious =>
      if Tid.reader ∈ s.cond_var then some { s with cond_var := s.cond_var.erase .reader }
      else none
  | .blocked, .go =>
      if Tid.reader ∉ s.cond_var ∧ s.shared_data_mut = none then
        some { s with shared_data_mut := some .reader, rpc := .waitTest }
      else none
  | .coutWakes, .go =>
      some { s with console := s.console ++ [(.reader, "Reader thread wakes up")],
                    rpc := .coutData }
  | .coutData, .go =>
      some { s with console := s.console ++ [(.reader, "Data is \"" ++ s.shared_data ++ "\"")],
                    shown := some s.shared_data, rpc := .coutUnlocks }
  | .coutUnlocks, .go =>
      some { s with console := s.console ++ [(.reader, "Reader thread unlocks the mutex")],
                    rpc := .unlock }
  | .unlock, .go => some { s with shared_data_mut := none, rpc := .done }
  | _, _ => none

/-- One step of `writer_with_condition_variable`.  The notification is sent to
`cond_variable`. -/
def writer_with_condition_variable (s : State) : Option State :=
  match s.wpc with
  | .coutLocking =>
      some { s with console := s.console ++ [(.writer, "Writer thread locking the mutex")],
                    wpc := .lock }
  | .lock =>
      if s.shared_data_mut = none then
        some { s with shared_data_mut := some .writer, wpc := .coutLocked }
      else none
  | .coutLocked =>
      some { s with console := s.console ++ [(.writer, "Writer thread has locked the mutex")],
                    wpc := .sleep }
  | .sleep => some { s with wpc := .coutModifying }
  | .coutModifying =>
      some { s with console := s.console ++ [(.writer, "Writer thread modifying data.....")],
                    wpc := .setData }
  | .setData => some { s with shared_data := "Populated", wpc := .setCondition }
  | .setCondition => some { s with condition := true, wpc := .coutUnlocks }
  | .coutUnlocks =>
      some { s with console := s.console ++ [(.writer, "Writer thread unlocks the mutex")],
                    wpc := .unlock }
  | .unlock => some { s with shared_data_mut := none, wpc := .coutNotify }
  | .coutNotify =>
      some { s with console := s.console ++ [(.writer, "Writer thread sends notification")],
                    wpc := .notifyAll }
  | .notifyAll => some { s with cond_variable := [], wpc := .done }
  | .done => none

/-- One scheduling decision. -/
inductive Action
  | reader (ev : ThreadSync.Wake)
  | writer
  deriving DecidableEq, Repr

/-- The interleaving semantics of the two functions. -/
def step (s : State) : Action → Option State
  | .reader ev => reader_with_condition_variable s ev
  | .writer => writer_with_condition_variable s

/-- Executes a schedule; `none` when some decision of the schedule is not enabled. -/
def run (s : State) : List Action → Option State
  | [] => some s
  | a :: as => (step s a).bind fun t => run t as

/-- States reachable from `init`. -/
inductive Reachable : State → Prop
  | start : Reachable init
  | next {s t : State} (a : Action) : Reachable s → step s a = some t → Reachable t

/-- The writer is past line 744. -/
def WPc.wrote : WPc → Bool
  | .setCondition | .coutUnlocks | .unlock | .coutNotify | .notifyAll | .done => true
  | _ => false

/-- The reader is past the wait of line 715. -/
def RPc.pastWait : RPc → Bool
  | .coutWakes | .coutData | .coutUnlocks | .unlock | .done => true
  | _ => false

/-- What holds of the data in every reachable state. -/
structure DataInv (s : State) : Prop where
  wrote : s.wpc.wrote = true → s.shared_data = "Populated"
  flag : s.condition = true → s.wpc.wrote = true
  past : s.rpc.pastWait = true → s.condition = true
  shown : ∀ d, s.shown = some d → d = "Populated"

/-- The interleaving in which the reader starts first and is inside its wait
when the writer runs. -/
def readerFirstSchedule : List Action :=
  List.replicate 5 (.reader .go) ++ List.replicate 11 .writer

/-- Final state of `readerFirstSchedule`. -/
def readerFirst : State := (run init readerFirstSchedule).getD init

/-- The interleaving in which the writer finishes before the reader starts. -/
def writerFirstSchedule : List Action :=
  List.replicate 11 .writer ++ List.replicate 9 (.reader .go)

/-- Final state of `writerFirstSchedule`. -/
def writerFirst : State := (run init writerFirstSchedule).getD init

end WithPredicate

/-! ## `working_with_shared_data/main.cpp`: the class `ThreadSafeQueue` -/

namespace ThreadSafeQueue

/-- A call of a member function of `ThreadSafeQueue`; for `try_pop`, `val` is
the value of the caller's variable before the call. -/
inductive Call
  | push (val : Int)
  | try_pop (val : Int)
  deriving DecidableEq, Repr

/-- Program counter of a thread inside `push` (lines 253-256) or `try_pop`
(lines 258-265). -/
inductive Pc
  | pushLock    -- 254  lock_guard lock(m)
  | pushPush    -- 255  q.push(val)
  | pushUnlock  -- 256  scope exit: lock released
  | popEmpty    -- 259  if (q.empty())
  | popFalse    -- 260  return false
  | popLock     -- 262  lock_guard lock(m)
  | popFront    -- 263  val = q.front()
  | popPop      -- 264  q.pop()
  | popTrue     -- 264  return true: lock released
  | done
  deriving DecidableEq, Repr

/-- A thread that executes one call: its program counter, the argument `val`
and, for `try_pop`, the value returned. -/
structure Thread where
  pc : Pc
  val : Int
  result : Option Bool
  deriving DecidableEq, Repr

/-- The thread at the entry of a call. -/
def Call.thread : Call → Thread
  | .push val => { pc := .pushLock, val := val, result := none }
  | .try_pop val => { pc := .popEmpty, val := val, result := none }

/-- One `ThreadSafeQueue` and the threads calling its member functions: the
members `q` (front of the queue = head of the list) and `m` (its holder, a
thread index), the threads, and whether `q.front()` or `q.pop()` has been
executed on an empty queue, which is undefined behaviour. -/
structure State where
  q : List Int
  m : Option Nat
  threads : List Thread
  undefined : Bool
  deriving DecidableEq, Repr

/-- An unlocked queue with contents `q`, and one thread at the entry of each call. -/
def start (q : List Int) (calls : List Call) : State where
  q := q
  m := none
  threads := calls.map Call.thread
  undefined := false

/-- One step of thread `i`. -/
def step (s : State) (i : Nat) : Option State :=
  match s.threads[i]? with
  | none => none
  | some t =>
    match t.pc with
    | .pushLock =>
        if s.m = none then
          some { s with m := some i, threads := s.threads.set i { t with pc := .pushPush } }
        else none
    | .pushPush =>
        some { s with q := s.q ++ [t.val], threads := s.threads.set i { t with pc := .pushUnlock } }
    | .pushUnlock =>
        some { s with m := none, threads := s.threads.set i { t with pc := .done } }
    | .popEmpty =>
        if s.q.isEmpty then some { s with threads := s.threads.set i { t with pc := .popFalse } }
        else some { s with threads := s.threads.set i { t with pc := .popLock } }
    | .popFalse =>
        some { s with threads := s.threads.set i { t with pc := .done, result := some false } }
    | .popLock =>
        if s.m = none then
          some { s with m := some i, threads := s.threads.set i { t with pc := .popFront } }
        else none
    | .popFront =>
        match s.q with
        | x :: _ => some { s with threads := s.threads.set i { t with pc := .popPop, val := x } }
        | [] => some { s with undefined := true,
                              threads := s.threads.set i { t with pc := .popPop } }
    | .popPop =>
        match s.q with
        | _ :: rest =>
            some { s with q := rest, threads := s.threads.set i { t with pc := .popTrue } }
        | [] => some { s with undefined := true,
                              threads := s.threads.set i { t with pc := .popTrue } }
    | .popTrue =>
        some { s with m := none,
                      threads := s.threads.set i { t with pc := .done, result := some true } }
    | .done => none

/-- Executes a schedule, a list of thread indices. -/
def run (s : State) : List Nat → Option State
  | [] => some s
  | i :: is => (step s i).bind fun t => run t is

/-- The member function `push`, called when no other call is in progress. -/
def push (q : List Int) (val : Int) : List Int :=
  q ++ [val]

/-- The member function `try_pop`, called when no other call is in progress:
the value returned, the caller's variable and the queue after the call. -/
def try_pop (q : List Int) (val : Int) : Bool × Int × List Int :=
  if q.isEmpty then (false, val, q)
  else (true, q.headD val, q.tail)

/-- The queue after `push(x)` for each `x` of `xs`, in order. -/
def pushAll (q : List Int) (xs : List Int) : List Int :=
  xs.foldl push q

/-- What `n` successive calls of `try_pop` with the same variable return, each
with the value of the variable after the call, and the queue after them. -/
def popMany : Nat → List Int → Int → List (Bool × Int) × List Int
  | 0, q, _ => ([], q)
  | n + 1, q, val =>
      (((try_pop q val).1, (try_pop q val).2.1) ::
        (popMany n (try_pop q val).2.2 (try_pop q val).2.1).1,
       (popMany n (try_pop q val).2.2 (try_pop q val).2.1).2)

/-- Two calls of `try_pop` race for the one element pushed by thread 0: both
test `q.empty()` before either locks `m`. -/
def racingPopsSchedule : List Nat := [0, 0, 0, 1, 2, 1, 1, 1, 1, 2]

/-- State reached by `racingPopsSchedule`: thread 2 owns `m` and is at line 263,
the queue is empty. -/
def racingPops : State :=
  (run (start [] [.push 7, .try_pop 0, .try_pop 0]) racingPopsSchedule).getD (start [] [])

/-- Thread 0 is inside `push` and owns `m`; thread 1 enters `try_pop`. -/
def unlockedTestSchedule : List Nat := [0]

/-- State reached by `unlockedTestSchedule`. -/
def unlockedTest : State :=
  (run (start [] [.push 7, .try_pop 0]) unlockedTestSchedule).getD (start [] [])

end ThreadSafeQueue

/-! ## `working_with_shared_data/main.cpp`: the class `ThreadSafeVector` and `func` -/

namespace ThreadSafeVector

/-- The three threads `main` starts on `func` (lines 315-317). -/
inductive Tid
  | vp1
  | vp2
  | vp3
  deriving DecidableEq, Repr

/-- Program counter of `func` (lines 291-298), with the bodies of `push_back`
(lines 275-279) and `print` (lines 281-288) in place of the calls.  The call
`vec.push_back(val)` of line 278 is not atomic: it reads where the vector ends,
then stores `val` there and moves the end. -/
inductive Pc
  | loopTest     -- 292  i < 5
  | pushLock     -- 276  lock_guard lock(m)
  | pushRead     -- 278  vec.push_back(val): read the end of the vector
  | pushWrite    -- 278  vec.push_back(val): store val at that place, move the end
  | pushUnlock   -- 279  scope exit: lock released
  | sleep        -- 294  sleep_for(50ms)
  | printLock    -- 282  lock_guard lock(m)
  | printLoop    -- 284  i < vec.size(); 285 cout << vec[i] << ", "; ++i
  | printUnlock  -- 288  scope exit: lock released
  | incr         -- 292  ++i
  | done
  deriving DecidableEq, Repr

/-- Locals of one thread: program counter, loop variable `i` of `func`, loop
variable of `print` (`j` here; it is another `i` in the source), and the end of
the vector as read by the call of `push_back` in progress. -/
structure Local where
  pc : Pc
  i : Nat
  j : Nat
  pos : Nat
  deriving DecidableEq, Repr

/-- The shared `ThreadSafeVector my_vec` (members `vec` and `m`), the locals of
the three threads, the console, and for each element of `vec` the thread that
stored it, with the element. -/
structure State where
  vec : List Int
  m : Option Tid
  vp1 : Local
  vp2 : Local
  vp3 : Local
  console : List String
  pushed : List (Tid × Int)
  deriving DecidableEq, Repr

/-- State when `main` has started the three threads. -/
def init : State where
  vec := []
  m := none
  vp1 := { pc := .loopTest, i := 0, j := 0, pos := 0 }
  vp2 := { pc := .loopTest, i := 0, j := 0, pos := 0 }
  vp3 := { pc := .loopTest, i := 0, j := 0, pos := 0 }
  console := []
  pushed := []

/-- Locals of thread `t`. -/
def State.get (s : State) : Tid → Local
  | .vp1 => s.vp1
  | .vp2 => s.vp2
  | .vp3 => s.vp3

/-- Replaces the locals of thread `t`. -/
def State.set (s : State) (t : Tid) (l : Local) : State :=
  match t with
  | .vp1 => { s with vp1 := l }
  | .vp2 => { s with vp2 := l }
  | .vp3 => { s with vp3 := l }

/-- One step of thread `t` in `func`.  The store of `push_back` puts the value
at the place the call has read as the end of the vector, and the vector ends
after it: an element stored there or behind it in the meantime is overwritten. -/
def func (s : State) (t : Tid) : Option State :=
  let l := s.get t
  match l.pc with
  | .loopTest =>
      if l.i < 5 then some (s.set t { l with pc := .pushLock })
      else some (s.set t { l with pc := .done })
  | .pushLock =>
      if s.m = none then some ({ s with m := some t }.set t { l with pc := .pushRead })
      else none
  | .pushRead => some (s.set t { l with pc := .pushWrite, pos := s.vec.length })
  | .pushWrite =>
      some ({ s with vec := s.vec.take l.pos ++ [(l.i : Int)],
                     pushed := s.pushed.take l.pos ++ [(t, (l.i : Int))] }.set t
        { l with pc := .pushUnlock })
  | .pushUnlock => some ({ s with m := none }.set t { l with pc := .sleep })
  | .sleep => some (s.set t { l with pc := .printLock })
  | .printLock =>
      if s.m = none then some ({ s with m := some t }.set t { l with pc := .printLoop, j := 0 })
      else none
  | .printLoop =>
      match s.vec[l.j]? with
      | some v =>
          some ({ s with console := s.console ++ [toString v ++ ", "] }.set t
            { l with j := l.j + 1 })
      | none => some (s.set t { l with pc := .printUnlock })
  | .printUnlock => some ({ s with m := none }.set t { l with pc := .incr })
  | .incr => some (s.set t { l with pc := .loopTest, i := l.i + 1 })
  | .done => none

/-- Executes a schedule, a list of thread names. -/
def run (s : State) : List Tid → Option State
  | [] => some s
  | t :: ts => (func s t).bind fun u => run u ts

/-- States reachable from `init` under some interleaving. -/
inductive Reachable : State → Prop
  | start : Reachable init
  | next {s u : State} (t : Tid) : Reachable s → func s t = some u → Reachable u

/-- The three threads have returned, so the three `join` calls of `main` return. -/
def allDone (s : State) : Bool :=
  s.vp1.pc = .done && s.vp2.pc = .done && s.vp3.pc = .done

/-- The values of `vec` that thread `t` has stored, in the order in which they
stand in `vec`. -/
def pushedBy (s : State) (t : Tid) : List Int :=
  (s.pushed.filter fun p => p.1 = t).map Prod.snd

/-- Program points inside the scope of a `lock_guard` on `m`. -/
def Pc.holdsLock : Pc → Bool
  | .pushRead | .pushWrite | .pushUnlock | .printLoop | .printUnlock => true
  | _ => false

/-- Program points after the `push_back` of the current iteration. -/
def Pc.hasPushed : Pc → Bool
  | .pushUnlock | .sleep | .printLock | .printLoop | .printUnlock | .incr => true
  | _ => false

/-- Number of calls of `vec.push_back` a thread has completed. -/
def Local.pushes (l : Local) : Nat :=
  if l.pc.hasPushed then l.i + 1 else l.i

/-- Range of the loop variable at each program point. -/
def Local.iOk (l : Local) : Bool :=
  match l.pc with
  | .done => l.i = 5
  | .loopTest => l.i ≤ 5
  | _ => l.i < 5

/-- Inductive invariant: `m` is owned by the thread that is inside a
`lock_guard` scope; a call of `push_back` that has read the end of the vector
still has the right end; and each thread has in `vec` the values below its loop
variable, in increasing order. -/
structure Pushes (s : State) : Prop where
  lock : ∀ t, s.m = some t ↔ (s.get t).pc.holdsLock = true
  pos : ∀ t, (s.get t).pc = .pushWrite → (s.get t).pos = s.vec.length
  vec : s.vec = s.pushed.map Prod.snd
  own : ∀ t, pushedBy s t = (List.range (s.get t).pushes).map Int.ofNat
  iOk : ∀ t, (s.get t).iOk = true

/-- One iteration of `func` by a thread that finds `n` elements in the vector
when it prints. -/
def iteration (t : Tid) (n : Nat) : List Tid :=
  List.replicate (n + 10) t

/-- The three threads take turns, one iteration of the loop each; at the end
each executes the last loop test. -/
def roundRobinSchedule : List Tid :=
  ((List.range 5).map fun r =>
    iteration .vp1 (3 * r + 1) ++ iteration .vp2 (3 * r + 2) ++
      iteration .vp3 (3 * r + 3)).flatten ++
  [.vp1, .vp2, .vp3]

/-- Final state of `roundRobinSchedule`. -/
def roundRobin : State := (run init roundRobinSchedule).getD init

/-- The threads contend for `m`: `vp2` and `vp3` reach line 276 while `vp1` is
inside its first `push_back`. -/
def contendedSchedule : List Tid :=
  [.vp1, .vp1, .vp1, .vp2, .vp3]

/-- State reached by `contendedSchedule`. -/
def contended : State := (run init contendedSchedule).getD init

/-- A state that no interleaving reaches: `vp1` and `vp2` are both inside
`push_back` and have both read the end of the empty vector. -/
def overlapping : State :=
  { init with vp1 := { pc := .pushWrite, i := 0, j := 0, pos := 0 },
              vp2 := { pc := .pushWrite, i := 0, j := 0, pos := 0 } }

end ThreadSafeVector

namespace ThreadSync

/-! ## Preservation of the invariant -/

@[simp] theorem PPc.wake_holdsData_ppc (p : PPc) : p.wake.holdsData = p.holdsData := by
  cases p <;> rfl

@[simp] theorem DPc.wake_holdsData_dpc (p : DPc) : p.wake.holdsData = p.holdsData := by
  cases p <;> rfl

@[simp] theorem PPc.wake_holdsPrint_ppc (p : PPc) : p.wake.holdsPrint = p.holdsPrint := by
  cases p <;> rfl

@[simp] theorem DPc.wake_holdsPrint_dpc (p : DPc) : p.wake.holdsPrint = p.holdsPrint := by
  cases p <;> rfl

@[simp] theorem PPc.wake_sawComplete_ppc (p : PPc) : p.wake.sawComplete = p.sawComplete := by
  cases p <;> rfl

@[simp] theorem DPc.wake_sawComplete_dpc (p : DPc) : p.wake.sawComplete = p.sawComplete := by
  cases p <;> rfl

@[simp] theorem DPc.wake_hasRead_dpc (p : DPc) : p.wake.hasRead = p.hasRead := by
  cases p <;> rfl

@[simp] theorem DPc.wake_ne_blocked_dpc (p : DPc) : p.wake ≠ .blockedComplete := by
  cases p <;> simp +decide [DPc.wake]

/-- The call `notify_one` changes the program counters of the waiters only, and
each of them either stays or is woken. -/
theorem notify_one_eq (s : State) (pick : Tid) :
    ∃ p d, (p = s.ppc ∨ p = s.ppc.wake) ∧ (d = s.dpc ∨ d = s.dpc.wake) ∧
      notify_one s pick = { s with ppc := p, dpc := d } := by
  unfold notify_one
  split
  · split
    · exact ⟨s.ppc, s.dpc.wake, Or.inl rfl, Or.inr rfl, rfl⟩
    · exact ⟨s.ppc.wake, s.dpc, Or.inr rfl, Or.inl rfl, rfl⟩
  · split
    · exact ⟨s.ppc.wake, s.dpc, Or.inr rfl, Or.inl rfl, rfl⟩
    · exact ⟨s.ppc, s.dpc.wake, Or.inl rfl, Or.inr rfl, rfl⟩

theorem blocks_succ (k : Nat) : blocks k ++ ("Block" ++ toString (k + 1)) = blocks (k + 1) := rfl

theorem blocks_length_le_succ (k : Nat) : (blocks k).length ≤ (blocks (k + 1)).length := by
  rw [← blocks_succ, String.length_append]
  exact Nat.le_add_right _ _

theorem blocks_five : blocks 5 = "Block1Block2Block3Block4Block5" := by decide

theorem Inv.init : Inv init := by
  constructor <;> simp +decide [ThreadSync.init, blocks]

set_option maxHeartbeats 1000000 in
theorem Inv.fetch {s t : State} (pick : Tid) (h : Inv s) (hs : fetch_data s pick = some t) :
    Inv t := by
  have h1 := h.lockF; have h2 := h.lockP; have h3 := h.lockD
  have h4 := h.printF; have h5 := h.printP; have h6 := h.printD
  have h7 := h.data; have h8 := h.iOk; have h9 := h.complete; have h10 := h.writes
  have h11 := h.dSaw; have h12 := h.pSaw; have h13 := h.noMiss; have h14 := h.processed
  have h15 := h.lensSorted; have h16 := h.lensLe; have h17 := h.lenLast
  clear h
  unfold fetch_data at hs
  cases hpc : s.fpc <;> simp only [hpc] at hs
  case notifyOne =>
    obtain ⟨p, d, hp, hd, he⟩ := notify_one_eq s pick
    rw [he] at hs
    cases hs
    rcases hp with rfl | rfl <;> rcases hd with rfl | rfl <;>
      (constructor <;> simp_all +decide [FPc.appended, FPc.iOk])
  all_goals (try split at hs)
  all_goals (try cases hs)
  all_goals (constructor <;> simp_all +decide [FPc.appended, FPc.iOk, blocks_succ, notify_all])
  all_goals first
    | omega
    | (intro x hx; exact le_trans (h16 x hx) (blocks_length_le_succ _))

set_option maxHeartbeats 1000000 in
theorem Inv.progress {s t : State} (ev : Wake) (h : Inv s) (hs : progress_bar s ev = some t) :
    Inv t := by
  have h1 := h.lockF; have h2 := h.lockP; have h3 := h.lockD
  have h4 := h.printF; have h5 := h.printP; have h6 := h.printD
  have h7 := h.data; have h8 := h.iOk; have h9 := h.complete; have h10 := h.writes
  have h11 := h.dSaw; have h12 := h.pSaw; have h13 := h.noMiss; have h14 := h.processed
  have h15 := h.lensSorted; have h16 := h.lensLe; have h17 := h.lenLast
  clear h
  unfold progress_bar at hs
  cases hpc : s.ppc <;> cases ev <;> simp only [hpc] at hs
  all_goals (try split at hs)
  all_goals (try cases hs)
  all_goals (constructor <;> simp_all +decide [mustBlock, List.pairwise_append])
  rintro x (hx | rfl)
  · exact h16 x hx
  · exact le_rfl

set_option maxHeartbeats 1000000 in
theorem Inv.process {s t : State} (ev : Wake) (h : Inv s) (hs : process_data s ev = some t) :
    Inv t := by
  have h1 := h.lockF; have h2 := h.lockP; have h3 := h.lockD
  have h4 := h.printF; have h5 := h.printP; have h6 := h.printD
  have h7 := h.data; have h8 := h.iOk; have h9 := h.complete; have h10 := h.writes
  have h11 := h.dSaw; have h12 := h.pSaw; have h13 := h.noMiss; have h14 := h.processed
  have h15 := h.lensSorted; have h16 := h.lensLe; have h17 := h.lenLast
  clear h
  unfold process_data at hs
  cases hpc : s.dpc <;> cases ev <;> simp only [hpc] at hs
  all_goals (try split at hs)
  all_goals (try cases hs)
  all_goals (constructor <;> simp_all +decide [mustBlock])
  all_goals (cases hf : s.fpc <;> simp_all +decide [FPc.appended, FPc.iOk])

theorem Inv.step {s t : State} (a : Action) (h : Inv s) (hs : step s a = some t) : Inv t := by
  cases a with
  | fetch pick => exact h.fetch pick hs
  | progress ev => exact h.progress ev hs
  | process ev => exact h.process ev hs

theorem Reachable.inv {s : State} (h : Reachable s) : Inv s := by
  induction h with
  | start => exact Inv.init
  | next a _ hs ih => exact ih.step a hs

/-! ## Reachable states -/

theorem Reachable.run {s t : State} (sched : List Action) (h : Reachable s)
    (hr : run s sched = some t) : Reachable t := by
  induction sched generalizing s with
  | nil => cases hr; exact h
  | cons a as ih =>
    simp only [ThreadSync.run] at hr
    cases hst : step s a with
    | none => simp [hst] at hr
    | some u =>
      rw [hst] at hr
      exact ih (Reachable.next a h hst) hr

theorem interleavedFinal_reachable : Reachable interleavedFinal :=
  Reachable.run interleavedSchedule Reachable.start (by decide)

theorem staleFinal_reachable : Reachable staleFinal :=
  Reachable.run staleSchedule Reachable.start (by decide)

/-! ## Completeness, the completion flag and the reported lengths (C1-C5) -/

/-- The completion flag is never reset: a step from a state in which
`download_complete` is true leads to a state in which it is true. -/
theorem step_complete_mono {s t : State} (a : Action) (hs : step s a = some t)
    (hc : s.download_complete = true) : t.download_complete = true := by
  cases a with
  | fetch pick =>
    simp only [step, fetch_data] at hs
    cases hpc : s.fpc <;> simp only [hpc] at hs
    case notifyOne =>
      obtain ⟨p, d, -, -, he⟩ := notify_one_eq s pick
      rw [he] at hs
      cases hs
      exact hc
    all_goals (try split at hs)
    all_goals (try cases hs)
    all_goals (first | exact hc | rfl)
  | progress ev =>
    simp only [step, progress_bar] at hs
    cases hpc : s.ppc <;> cases ev <;> simp only [hpc] at hs
    all_goals (try split at hs)
    all_goals (try cases hs)
    all_goals exact hc
  | process ev =>
    simp only [step, process_data] at hs
    cases hpc : s.dpc <;> cases ev <;> simp only [hpc] at hs
    all_goals (try split at hs)
    all_goals (try cases hs)
    all_goals exact hc

theorem run_complete_mono {s t : State} (sched : List Action) (hr : run s sched = some t)
    (hc : s.download_complete = true) : t.download_complete = true := by
  induction sched generalizing s with
  | nil => cases hr; exact hc
  | cons a as ih =>
    simp only [ThreadSync.run] at hr
    cases hst : step s a with
    | none => simp [hst] at hr
    | some u =>
      rw [hst] at hr
      exact ih hr (step_complete_mono a hst hc)

theorem Inv.complete_data {s : State} (h : Inv s) (hc : s.download_complete = true) :
    s.downloaded_data = blocks 5 := by
  have h7 := h.data; have h8 := h.iOk; have h9 := h.complete
  cases hf : s.fpc <;> simp_all +decide [FPc.appended, FPc.iOk]

/-- C1. Completeness: in every state reachable by an interleaving of the trio, the
string `process_data` has read at line 848 is `Block1Block2Block3Block4Block5`;
the buffer holds that string when `process_data` is about to read it, and
`process_data` has read it when it has returned. -/
theorem process_data_reads_all_chunks (s : State) (h : Reachable s) :
    (∀ str, s.processed = some str → str = "Block1Block2Block3Block4Block5") ∧
    (s.dpc = .printDataOut → s.downloaded_data = "Block1Block2Block3Block4Block5") ∧
    (s.dpc = .done → s.processed = some "Block1Block2Block3Block4Block5") := by
  have hi := h.inv
  have hp := hi.processed
  refine ⟨?_, ?_, ?_⟩
  · intro str hstr
    rw [hstr] at hp
    split at hp
    · rw [← blocks_five]; exact Option.some.inj hp
    · cases hp
  · intro hd
    rw [← blocks_five]
    exact hi.complete_data (hi.dSaw (by rw [hd]; rfl))
  · intro hd
    rw [hp, hd, ← blocks_five]
    rfl

theorem process_data_reads_all_chunks_witness :
    interleavedFinal.processed = some "Block1Block2Block3Block4Block5" :=
  (process_data_reads_all_chunks interleavedFinal interleavedFinal_reachable).2.2 (by decide)

/-- C2. No partial read: in every reachable state in which `download_complete` is
true, `downloaded_data` already holds all five chunks. -/
theorem complete_implies_full_buffer (s : State) (h : Reachable s)
    (hc : s.download_complete = true) :
    s.downloaded_data = "Block1Block2Block3Block4Block5" := by
  rw [← blocks_five]
  exact h.inv.complete_data hc

theorem justCompleted_reachable : Reachable justCompleted :=
  Reachable.run (List.replicate 64 (.fetch .progress)) Reachable.start (by decide)

theorem complete_implies_full_buffer_witness :
    justCompleted.download_complete = true ∧
      justCompleted.downloaded_data = "Block1Block2Block3Block4Block5" :=
  ⟨by decide, complete_implies_full_buffer justCompleted justCompleted_reachable (by decide)⟩

/-- A step changes `completeWrites` only when it is line 801 of `fetch_data`. -/
theorem step_writes {s t : State} (a : Action) (hs : step s a = some t) :
    (t.completeWrites = s.completeWrites ∧ t.download_complete = s.download_complete) ∨
    (a.actor = .fetcher ∧ s.fpc = .setComplete ∧ t.completeWrites = s.completeWrites + 1 ∧
      t.download_complete = true) := by
  cases a with
  | fetch pick =>
    simp only [step, fetch_data] at hs
    cases hpc : s.fpc <;> simp only [hpc] at hs
    case notifyOne =>
      obtain ⟨p, d, -, -, he⟩ := notify_one_eq s pick
      rw [he] at hs
      cases hs
      exact Or.inl ⟨rfl, rfl⟩
    case setComplete =>
      cases hs
      exact Or.inr ⟨rfl, rfl, rfl, rfl⟩
    all_goals (try split at hs)
    all_goals (try cases hs)
    all_goals exact Or.inl ⟨rfl, rfl⟩
  | progress ev =>
    simp only [step, progress_bar] at hs
    cases hpc : s.ppc <;> cases ev <;> simp only [hpc] at hs
    all_goals (try split at hs)
    all_goals (try cases hs)
    all_goals exact Or.inl ⟨rfl, rfl⟩
  | process ev =>
    simp only [step, process_data] at hs
    cases hpc : s.dpc <;> cases ev <;> simp only [hpc] at hs
    all_goals (try split at hs)
    all_goals (try cases hs)
    all_goals exact Or.inl ⟨rfl, rfl⟩

/-- C3. The completion flag is one-shot: in every reachable state the number of
assignments to `download_complete` is 1 if the flag is true and 0 otherwise, it
is 1 once the three threads have returned, no step resets the flag, and the
only step that assigns it is line 801 of `fetch_data`, executed with the flag
false and the buffer already holding all five chunks. -/
theorem download_complete_assigned_once (s : State) (h : Reachable s) :
    s.completeWrites = (if s.download_complete then 1 else 0) ∧
    (allDone s = true → s.completeWrites = 1) ∧
    ∀ a t, step s a = some t →
      (s.download_complete = true → t.download_complete = true) ∧
      (t.download_complete ≠ s.download_complete ∨ t.completeWrites ≠ s.completeWrites →
        a.actor = .fetcher ∧ s.fpc = .setComplete ∧ s.download_complete = false ∧
        t.download_complete = true ∧ t.completeWrites = 1 ∧
        s.downloaded_data = "Block1Block2Block3Block4Block5") := by
  have hi := h.inv
  refine ⟨hi.writes, ?_, ?_⟩
  · intro hd
    have hf : s.fpc = .done := by
      simp only [allDone, Bool.and_eq_true, decide_eq_true_eq] at hd
      exact hd.1.1
    have hc : s.download_complete = true := by rw [hi.complete, hf]; rfl
    rw [hi.writes, hc]
    rfl
  · intro a t hs
    refine ⟨step_complete_mono a hs, ?_⟩
    intro hne
    rcases step_writes a hs with ⟨h1, h2⟩ | ⟨h1, h2, h3, h4⟩
    · rcases hne with hne | hne
      · exact absurd h2 hne
      · exact absurd h1 hne
    · have hc : s.download_complete = false := by rw [hi.complete, h2]; rfl
      have hw := hi.writes
      rw [hc] at hw
      have hd := hi.data
      have hk := hi.iOk
      rw [h2] at hd hk
      simp only [FPc.iOk, decide_eq_true_eq] at hk
      simp only [FPc.appended] at hd
      rw [hk] at hd
      refine ⟨h1, h2, hc, h4, ?_, ?_⟩
      · rw [h3, hw]; rfl
      · rw [hd, blocks_five]

theorem download_complete_assigned_once_witness : interleavedFinal.completeWrites = 1 :=
  (download_complete_assigned_once interleavedFinal interleavedFinal_reachable).2.1 (by decide)

/-- C4. Monotonicity: in every reachable state the successive values that
`progress_bar` has assigned to `len` form a non-decreasing sequence. -/
theorem progress_bar_lengths_nondecreasing (s : State) (h : Reachable s) :
    s.lens.Pairwise (fun a b => a ≤ b) :=
  h.inv.lensSorted

theorem progress_bar_lengths_nondecreasing_witness :
    interleavedFinal.lens = [6, 12, 18, 24, 30, 30] ∧
      interleavedFinal.lens.Pairwise (fun a b => a ≤ b) :=
  ⟨by decide, progress_bar_lengths_nondecreasing interleavedFinal interleavedFinal_reachable⟩

theorem blocks_length (k : Nat) (hk : k ≤ 5) : (blocks k).length = 6 * k := by
  interval_cases k <;> decide

theorem Inv.appended_le {s : State} (h : Inv s) : s.fpc.appended s.i ≤ 5 := by
  have h8 := h.iOk
  cases hf : s.fpc <;> simp_all +decide [FPc.appended, FPc.iOk] <;> omega

theorem Inv.data_length_le {s : State} (h : Inv s) : s.downloaded_data.length ≤ 30 := by
  rw [h.data, blocks_length _ h.appended_le]
  have := h.appended_le
  omega

theorem Inv.len_le {s : State} (h : Inv s) : s.len ≤ s.downloaded_data.length := by
  rcases h.lenLast with hl | ⟨-, hl⟩
  · exact h.lensLe _ (List.mem_of_getLast?_eq_some hl)
  · rw [hl]; exact Nat.zero_le _

/-- C5, counterexample. In the run `staleSchedule` all three threads return, the
last length `progress_bar` reported is 24, and `process_data` received a string
of length 30. -/
theorem final_length_differs_in_stale_run :
    run init staleSchedule = some staleFinal ∧ allDone staleFinal = true ∧
      staleFinal.lens.getLast? = some 24 ∧ staleFinal.len = 24 ∧
      staleFinal.processed = some "Block1Block2Block3Block4Block5" ∧
      staleFinal.processed.map String.length = some 30 := by
  decide

/-- C5, amended. In every reachable state each length `progress_bar` has reported,
the last one included, is at most 30, the length of the string `process_data`
receives; a length read when `download_complete` is already true is 30. -/
theorem final_length_le_processed_length (s : State) (h : Reachable s) :
    (∀ x ∈ s.lens, x ≤ 30) ∧
    (s.lens.getLast? = some s.len ∨ (s.lens = [] ∧ s.len = 0)) ∧
    (∀ str, s.processed = some str → str.length = 30 ∧ s.len ≤ str.length) ∧
    (s.download_complete = true → s.ppc = .readLen →
      ∀ t, progress_bar s .go = some t → t.len = 30 ∧ t.lens.getLast? = some 30) := by
  have hi := h.inv
  refine ⟨fun x hx => le_trans (hi.lensLe x hx) hi.data_length_le, hi.lenLast, ?_, ?_⟩
  · intro str hstr
    have hp := hi.processed
    rw [hstr] at hp
    split at hp
    · have hs5 : str = blocks 5 := Option.some.inj hp
      have hlen : str.length = 30 := by rw [hs5]; decide
      exact ⟨hlen, by rw [hlen]; exact le_trans hi.len_le hi.data_length_le⟩
    · cases hp
  · intro hc hpc t ht
    have hd : s.downloaded_data.length = 30 := by rw [hi.complete_data hc]; decide
    simp only [progress_bar, hpc] at ht
    cases ht
    simp [hd]

theorem final_length_le_processed_length_witness :
    staleFinal.processed = some "Block1Block2Block3Block4Block5" ∧ staleFinal.len ≤ 30 :=
  ⟨by decide,
    ((final_length_le_processed_length staleFinal staleFinal_reachable).2.2.1 _
      (by decide : staleFinal.processed = some "Block1Block2Block3Block4Block5")).2⟩

/-! ## The completion signal and the lock discipline (C7-C10) -/

/-- C7. Leveled completion signal: in any state in which `download_complete` is
true the entry test of a wait on it does not block; the wait of `process_data`
and both tests of the 10 ms `wait_for` of `progress_bar` return true at once,
keeping the lock; and the flag is still true after any further schedule, so the
same holds for every later poll, whatever notifications happen in between. -/
theorem completion_wait_does_not_block (s : State) (hc : s.download_complete = true) :
    mustBlock s.download_complete = false ∧
    (s.dpc = .waitComplete → ∃ t, process_data s .go = some t ∧ t.dpc = .printDataLock ∧
      t.data_lock = s.data_lock) ∧
    (s.ppc = .waitComplete → ∃ t, progress_bar s .go = some t ∧ t.ppc = .printEnded ∧
      t.data_lock = s.data_lock) ∧
    (s.ppc = .lastCheckComplete → ∃ t, progress_bar s .go = some t ∧ t.ppc = .printEnded ∧
      t.data_lock = s.data_lock) ∧
    (∀ sched t, run s sched = some t →
      t.download_complete = true ∧ mustBlock t.download_complete = false) := by
  refine ⟨by simp [mustBlock, hc], ?_, ?_, ?_, ?_⟩
  · intro hd
    exact ⟨{ s with dpc := .printDataLock }, by simp [process_data, hd, mustBlock, hc], rfl, rfl⟩
  · intro hp
    exact ⟨{ s with ppc := .printEnded }, by simp [progress_bar, hp, mustBlock, hc], rfl, rfl⟩
  · intro hp
    exact ⟨{ s with ppc := .printEnded }, by simp [progress_bar, hp, hc], rfl, rfl⟩
  · intro sched t hr
    have ht := run_complete_mono sched hr hc
    exact ⟨ht, by simp [mustBlock, ht]⟩

theorem completion_wait_does_not_block_witness :
    lateConsumer.dpc = .waitComplete ∧
      ∃ t, process_data lateConsumer .go = some t ∧ t.dpc = .printDataLock ∧
        t.data_lock = lateConsumer.data_lock :=
  ⟨by decide, (completion_wait_does_not_block lateConsumer (by decide)).2.1 (by decide)⟩

theorem Inv.not_holdsData_fetcher {s : State} (h : Inv s) (hl : s.data_lock ≠ some .fetcher) :
    s.fpc.holdsData = false := by
  cases hh : s.fpc.holdsData
  · rfl
  · exact absurd (h.lockF.mpr hh) hl

theorem Inv.not_holdsData_progress {s : State} (h : Inv s) (hl : s.data_lock ≠ some .progress) :
    s.ppc.holdsData = false := by
  cases hh : s.ppc.holdsData
  · rfl
  · exact absurd (h.lockP.mpr hh) hl

theorem Inv.not_holdsData_processor {s : State} (h : Inv s)
    (hl : s.data_lock ≠ some .processor) : s.dpc.holdsData = false := by
  cases hh : s.dpc.holdsData
  · rfl
  · exact absurd (h.lockD.mpr hh) hl

/-- C8. No torn reads: in every reachable state, a step of a thread that does not
hold `data_lock` leaves `downloaded_data`, `string_updated` and
`download_complete` unchanged, and it is the same step whatever the values of
these three variables are; so every read and every write of them, the
evaluations of the wait predicates included, is made by the owner of
`data_lock`. -/
theorem shared_access_requires_data_lock (s : State) (h : Reachable s) (a : Action) (t : State)
    (hs : step s a = some t) (hl : s.data_lock ≠ some a.actor) :
    (t.downloaded_data = s.downloaded_data ∧ t.string_updated = s.string_updated ∧
      t.download_complete = s.download_complete) ∧
    ∀ d u c, step (withShared s d u c) a = some (withShared t d u c) := by
  have hi := h.inv
  cases a with
  | fetch pick =>
    have hh := hi.not_holdsData_fetcher hl
    simp only [step, fetch_data] at hs ⊢
    cases hpc : s.fpc <;> simp only [hpc] at hs hh
    all_goals (try (exact absurd hh (by decide)))
    all_goals (try split at hs)
    all_goals (try cases hs)
    all_goals (refine ⟨⟨rfl, rfl, rfl⟩, fun d u c => ?_⟩)
    all_goals simp_all [withShared]
  | progress ev =>
    have hh := hi.not_holdsData_progress hl
    simp only [step, progress_bar] at hs ⊢
    cases hpc : s.ppc <;> cases ev <;> simp only [hpc] at hs hh
    all_goals (try (exact absurd hh (by decide)))
    all_goals (try split at hs)
    all_goals (try cases hs)
    all_goals (refine ⟨⟨rfl, rfl, rfl⟩, fun d u c => ?_⟩)
    all_goals simp_all [withShared]
  | process ev =>
    have hh := hi.not_holdsData_processor hl
    simp only [step, process_data] at hs ⊢
    cases hpc : s.dpc <;> cases ev <;> simp only [hpc] at hs hh
    all_goals (try (exact absurd hh (by decide)))
    all_goals (try split at hs)
    all_goals (try cases hs)
    all_goals (refine ⟨⟨rfl, rfl, rfl⟩, fun d u c => ?_⟩)
    all_goals simp_all [withShared]

theorem duringAppend_reachable : Reachable duringAppend :=
  Reachable.run duringAppendSchedule Reachable.start (by decide)

theorem shared_access_requires_data_lock_witness :
    duringAppend.data_lock = some .fetcher ∧
      ∀ d u c, step (withShared duringAppend d u c) (.progress .timeout) =
        some (withShared duringAppendTimedOut d u c) :=
  ⟨by decide,
    (shared_access_requires_data_lock duringAppend duringAppend_reachable (.progress .timeout)
      duringAppendTimedOut (by decide) (by decide)).2⟩

/-- In every reachable state in which `fetch_data` is about to call `notify_one`
or `notify_all`, it owns `data_lock`. -/
theorem Reachable.notify_holds_data_lock {s : State} (h : Reachable s)
    (hpc : s.fpc = .notifyOne ∨ s.fpc = .notifyAll) : s.data_lock = some .fetcher := by
  apply h.inv.lockF.mpr
  rcases hpc with hpc | hpc <;> rw [hpc] <;> rfl

/-- C9. Where the code stands: `fetch_data` owns `data_lock` both when it executes
`notify_one` (line 792) and when it executes `notify_all` (line 803); `fetchData`
has released `dataMutex` when it executes `notify_all` on line 884 but owns
`completedMutex` when it executes `notify_all` on line 892. -/
theorem notify_called_with_lock_held :
    (run init (List.replicate 12 (.fetch .progress)) = some beforeNotifyOne ∧
      beforeNotifyOne.fpc = .notifyOne ∧ beforeNotifyOne.data_lock = some .fetcher) ∧
    (run init (List.replicate 64 (.fetch .progress)) = some beforeNotifyAll ∧
      beforeNotifyAll.fpc = .notifyAll ∧ beforeNotifyAll.data_lock = some .fetcher) ∧
    (Solution.fetchSteps 8 (Solution.init [.progress] [.processor]) =
        some Solution.beforeNotifyData ∧
      Solution.beforeNotifyData.fpc = .notifyData ∧ Solution.beforeNotifyData.dataMutex = none) ∧
    (Solution.fetchSteps 49 (Solution.init [.progress] [.processor]) =
        some Solution.beforeNotifyCompleted ∧
      Solution.beforeNotifyCompleted.fpc = .notifyCompleted ∧
      Solution.beforeNotifyCompleted.completedMutex = some .fetcher) := by
  decide

/-- C10. Where the code stands: with `progress_bar` and `process_data` both blocked
on the condition variable, line 792 wakes one of them only: if the scheduler
picks `process_data`, `progress_bar` stays blocked although `string_updated` is
true, and if it picks `progress_bar`, `process_data` stays blocked; `notify_all`
would wake both. -/
theorem notify_one_wakes_a_single_waiter :
    run init bothWaitingSchedule = some bothWaiting ∧
    bothWaiting.fpc = .notifyOne ∧ bothWaiting.string_updated = true ∧
    bothWaiting.ppc = .blockedUpdated ∧ bothWaiting.dpc = .blockedComplete ∧
    (∃ t, step bothWaiting (.fetch .processor) = some t ∧
      t.ppc = .blockedUpdated ∧ t.dpc = .wokenComplete) ∧
    (∃ t, step bothWaiting (.fetch .progress) = some t ∧
      t.ppc = .wokenUpdated ∧ t.dpc = .blockedComplete) ∧
    ((notify_all bothWaiting).ppc = .wokenUpdated ∧
      (notify_all bothWaiting).dpc = .wokenComplete) := by
  refine ⟨by decide, by decide, by decide, by decide, by decide,
    ⟨_, rfl, by decide, by decide⟩, ⟨_, rfl, by decide, by decide⟩, by decide, by decide⟩

/-! ## Termination under a fair scheduler (C6) -/

theorem progress_bar_succ {s t : State} (ev : Wake) (hs : progress_bar s ev = some t) :
    t.ppc = s.ppc.succ ev s.string_updated s.download_complete ∧
    t.fpc = s.fpc ∧ t.i = s.i ∧ t.dpc = s.dpc ∧ t.download_complete = s.download_complete := by
  unfold progress_bar at hs
  cases hpc : s.ppc <;> cases ev <;> simp only [hpc] at hs
  all_goals (try split at hs)
  all_goals (try cases hs)
  all_goals (refine ⟨?_, rfl, rfl, rfl, rfl⟩)
  all_goals simp_all [PPc.succ, mustBlock]

theorem fetch_data_enabled {s : State} (pick : Tid) (hd : s.fpc ≠ .done)
    (hp : s.fpc.wantsPrint = true → s.print_mut = none)
    (hl : s.fpc.wantsData = true → s.data_lock = none) :
    (fetch_data s pick).isSome = true := by
  unfold fetch_data
  cases hpc : s.fpc <;> simp_all +decide [FPc.wantsPrint, FPc.wantsData]
  split <;> rfl

theorem progress_bar_go_enabled {s : State} (hd : s.ppc ≠ .done) (hb : s.ppc.blocked = false)
    (hp : s.ppc.wantsPrint = true → s.print_mut = none)
    (hl : s.ppc.wantsData = true → s.data_lock = none) :
    (progress_bar s .go).isSome = true := by
  unfold progress_bar
  cases hpc : s.ppc <;> simp_all +decide [PPc.wantsPrint, PPc.wantsData, PPc.blocked]
  all_goals (split <;> rfl)

theorem progress_bar_timeout_enabled {s : State} :
    (progress_bar s .timeout).isSome = true ↔ s.ppc.blocked = true := by
  unfold progress_bar
  cases hpc : s.ppc <;> simp +decide [PPc.blocked]

theorem process_data_go_enabled {s : State} (hd : s.dpc ≠ .done) (hb : s.dpc.blocked = false)
    (hp : s.dpc.wantsPrint = true → s.print_mut = none)
    (hl : s.dpc.wantsData = true → s.data_lock = none) :
    (process_data s .go).isSome = true := by
  unfold process_data
  cases hpc : s.dpc <;> simp_all +decide [DPc.wantsPrint, DPc.wantsData, DPc.blocked]
  all_goals (split <;> rfl)

theorem PPc.holdsPrint_free (p : PPc) (h : p.holdsPrint = true) :
    p ≠ .done ∧ p.blocked = false ∧ p.wantsPrint = false ∧ p.wantsData = false := by
  cases p <;> revert h <;> decide

theorem DPc.holdsPrint_free_dpc (p : DPc) (h : p.holdsPrint = true) :
    p ≠ .done ∧ p.blocked = false ∧ p.wantsPrint = false ∧ p.wantsData = false := by
  cases p <;> revert h <;> decide

theorem PPc.holdsData_free (p : PPc) (h : p.holdsData = true) :
    p ≠ .done ∧ p.blocked = false ∧ p.wantsPrint = false ∧ p.wantsData = false := by
  cases p <;> revert h <;> decide

theorem DPc.holdsData_free_dpc (p : DPc) (h : p.holdsData = true) :
    p ≠ .done ∧ p.blocked = false ∧ p.wantsData = false ∧
      (p.wantsPrint = true → p.holdsPrint = false) := by
  cases p <;> revert h <;> decide

/-- The owner of `print_mut` is `progress_bar` when the mutex is taken and neither
of the two other threads is inside a print section. -/
theorem Inv.print_owner_progress {s : State} (h : Inv s) (hn : s.print_mut ≠ none)
    (hF : s.fpc.holdsPrint = false) (hD : s.dpc.holdsPrint = false) :
    s.print_mut = some .progress := by
  cases hp : s.print_mut with
  | none => exact absurd hp hn
  | some o =>
    cases o with
    | fetcher => rw [h.printF.mp hp] at hF; cases hF
    | progress => rfl
    | processor => rw [h.printD.mp hp] at hD; cases hD

/-- The owner of `data_lock` is `progress_bar` when the mutex is taken and neither
of the two other threads is inside a critical section. -/
theorem Inv.data_owner_progress {s : State} (h : Inv s) (hn : s.data_lock ≠ none)
    (hF : s.fpc.holdsData = false) (hD : s.dpc.holdsData = false) :
    s.data_lock = some .progress := by
  cases hp : s.data_lock with
  | none => exact absurd hp hn
  | some o =>
    cases o with
    | fetcher => rw [h.lockF.mp hp] at hF; cases hF
    | progress => rfl
    | processor => rw [h.lockD.mp hp] at hD; cases hD

theorem FPc.wants_free (p : FPc) :
    (p.wantsPrint = true → p.wantsData = false ∧ p.holdsPrint = false) ∧
    (p.wantsData = true → p.wantsPrint = false ∧ p.holdsData = false ∧ p.holdsPrint = false) := by
  cases p <;> decide

theorem PPc.wants_free_ppc (p : PPc) :
    (p.wantsPrint = true → p.holdsPrint = false) ∧ (p.wantsData = true → p.holdsData = false) := by
  cases p <;> decide

theorem fetch_disabled_cases {s : State} (hd : s.fpc ≠ .done)
    (hdis : ¬ (step s (.fetch .progress)).isSome = true) :
    (s.fpc.wantsPrint = true ∧ s.print_mut ≠ none) ∨
      (s.fpc.wantsData = true ∧ s.data_lock ≠ none) := by
  by_contra hc
  apply hdis
  refine fetch_data_enabled .progress hd (fun hw => ?_) (fun hw => ?_)
  · by_contra hne; exact hc (Or.inl ⟨hw, hne⟩)
  · by_contra hne; exact hc (Or.inr ⟨hw, hne⟩)

theorem DPc.blocked_iff (p : DPc) : p.blocked = false ↔ p ≠ .blockedComplete := by
  cases p <;> decide

theorem process_disabled_cases {s : State} (hd : s.dpc ≠ .done) (hb : s.dpc.blocked = false)
    (hdis : ¬ (step s (.process .go)).isSome = true) :
    (s.dpc.wantsPrint = true ∧ s.print_mut ≠ none) ∨
      (s.dpc.wantsData = true ∧ s.data_lock ≠ none) := by
  by_contra hc
  apply hdis
  refine process_data_go_enabled hd hb (fun hw => ?_) (fun hw => ?_)
  · by_contra hne; exact hc (Or.inl ⟨hw, hne⟩)
  · by_contra hne; exact hc (Or.inr ⟨hw, hne⟩)

/-- A step that writes to the console is made by the owner of `print_mut`, except
line 789 of `fetch_data` and line 831 of `progress_bar`. -/
theorem console_write_owner {s t : State} (h : Inv s) (a : Action) (hs : step s a = some t)
    (hc : t.console ≠ s.console) :
    s.print_mut = some a.actor ∨ (a.actor = .fetcher ∧ s.fpc = .coutData) ∨
      (a.actor = .progress ∧ s.ppc = .printEnded) := by
  cases a with
  | fetch pick =>
    simp only [step, fetch_data] at hs
    cases hpc : s.fpc <;> simp only [hpc] at hs
    case notifyOne =>
      obtain ⟨p, d, -, -, he⟩ := notify_one_eq s pick
      rw [he] at hs
      cases hs
      exact absurd rfl hc
    case coutData => exact Or.inr (Or.inl ⟨rfl, rfl⟩)
    all_goals (try split at hs)
    all_goals (try cases hs)
    all_goals (first | exact absurd rfl hc | exact Or.inl (h.printF.mpr (by rw [hpc]; rfl)))
  | progress ev =>
    simp only [step, progress_bar] at hs
    cases hpc : s.ppc <;> cases ev <;> simp only [hpc] at hs
    case printEnded.go => exact Or.inr (Or.inr ⟨rfl, rfl⟩)
    all_goals (try split at hs)
    all_goals (try cases hs)
    all_goals (first | exact absurd rfl hc | exact Or.inl (h.printP.mpr (by rw [hpc]; rfl)))
  | process ev =>
    simp only [step, process_data] at hs
    cases hpc : s.dpc <;> cases ev <;> simp only [hpc] at hs
    all_goals (try split at hs)
    all_goals (try cases hs)
    all_goals (first | exact absurd rfl hc | exact Or.inl (h.printD.mpr (by rw [hpc]; rfl)))

/-- C11. Where the code stands: line 789 of `fetch_data` and line 831 of
`progress_bar` write to the console without `print_mut`.  After
`unguardedDataPrintSchedule` the mutex is owned by `progress_bar`, which is about
to print line 814, and `fetch_data` is about to print line 789; after
`unguardedEndPrintSchedule` it is owned by `process_data`, which is about to
print line 841, and `progress_bar` is about to print line 831.  In both states
the two console writes are enabled together. -/
theorem console_write_without_print_mut :
    (run init unguardedDataPrintSchedule = some unguardedDataPrint ∧
      unguardedDataPrint.print_mut = some .progress ∧
      (step unguardedDataPrint (.fetch .progress)).map (·.console) =
        some (unguardedDataPrint.console ++ [(.fetcher, "downloaded_data: Block1")]) ∧
      (step unguardedDataPrint (.progress .go)).map (·.console) =
        some (unguardedDataPrint.console ++
          [(.progress, "Progress thread is waiting for the data......")])) ∧
    (run init unguardedEndPrintSchedule = some unguardedEndPrint ∧
      unguardedEndPrint.print_mut = some .processor ∧
      (step unguardedEndPrint (.progress .go)).map (·.console) =
        some (unguardedEndPrint.console ++ [(.progress, "Progress bar has ended...")]) ∧
      (step unguardedEndPrint (.process .go)).map (·.console) =
        some (unguardedEndPrint.console ++
          [(.processor, "Processing thread waiting for data......")])) := by
  decide

/-- C12. Single-writer frame: a step of `progress_bar` or `process_data` changes
neither `downloaded_data` nor `download_complete`, so a step that changes one of
them is a step of `fetch_data`; a step of `progress_bar` leaves `string_updated`
unchanged unless it is line 822, which sets it to false; a step of
`process_data` leaves it unchanged. -/
theorem only_fetch_data_writes_buffer_and_flag (s t : State) (a : Action)
    (hs : step s a = some t) :
    (a.actor ≠ .fetcher →
      t.downloaded_data = s.downloaded_data ∧ t.download_complete = s.download_complete) ∧
    (t.downloaded_data ≠ s.downloaded_data ∨ t.download_complete ≠ s.download_complete →
      a.actor = .fetcher) ∧
    (a.actor = .progress → t.string_updated = s.string_updated ∨
      (s.ppc = .resetUpdated ∧ t.string_updated = false)) ∧
    (a.actor = .processor → t.string_updated = s.string_updated) := by
  cases a with
  | fetch pick =>
    refine ⟨fun h => absurd rfl h, fun _ => rfl, ?_, ?_⟩
    · intro h; simp [Action.actor] at h
    · intro h; simp [Action.actor] at h
  | progress ev =>
    have key : t.downloaded_data = s.downloaded_data ∧
        t.download_complete = s.download_complete ∧
        (t.string_updated = s.string_updated ∨
          (s.ppc = .resetUpdated ∧ t.string_updated = false)) := by
      simp only [step, progress_bar] at hs
      cases hpc : s.ppc <;> cases ev <;> simp only [hpc] at hs
      case resetUpdated.go => cases hs; exact ⟨rfl, rfl, Or.inr ⟨rfl, rfl⟩⟩
      all_goals (try split at hs)
      all_goals (try cases hs)
      all_goals exact ⟨rfl, rfl, Or.inl rfl⟩
    refine ⟨fun _ => ⟨key.1, key.2.1⟩, fun h => ?_, fun _ => key.2.2, ?_⟩
    · rcases h with h | h
      · exact absurd key.1 h
      · exact absurd key.2.1 h
    · intro h; simp [Action.actor] at h
  | process ev =>
    have key : t.downloaded_data = s.downloaded_data ∧
        t.download_complete = s.download_complete ∧ t.string_updated = s.string_updated := by
      simp only [step, process_data] at hs
      cases hpc : s.dpc <;> cases ev <;> simp only [hpc] at hs
      all_goals (try split at hs)
      all_goals (try cases hs)
      all_goals exact ⟨rfl, rfl, rfl⟩
    refine ⟨fun _ => ⟨key.1, key.2.1⟩, fun h => ?_, ?_, fun _ => key.2.2⟩
    · rcases h with h | h
      · exact absurd key.1 h
      · exact absurd key.2.1 h
    · intro h; simp [Action.actor] at h

theorem only_fetch_data_writes_buffer_and_flag_witness :
    beforeReset.string_updated = true ∧ afterReset.string_updated = false ∧
      afterReset.downloaded_data = "Block1" ∧
      afterReset.downloaded_data = beforeReset.downloaded_data ∧
      afterReset.download_complete = beforeReset.download_complete :=
  ⟨by decide, by decide, by decide,
    ((only_fetch_data_writes_buffer_and_flag beforeReset afterReset (.progress .go)
      (by decide)).1 (by decide)).1,
    ((only_fetch_data_writes_buffer_and_flag beforeReset afterReset (.progress .go)
      (by decide)).1 (by decide)).2⟩

theorem PPc.succ_done (p : PPc) (ev : Wake) (u c : Bool) :
    (p.succ ev u c = .done → p = .breakUnlock ∨ p = .done) ∧
    (p.succ ev u c = .breakUnlock → p = .printEnded ∨ p = .breakUnlock) ∧
    (p.succ ev u c = .printEnded →
      (c = true ∧ (p = .waitComplete ∨ p = .lastCheckComplete)) ∨ p = .printEnded) := by
  cases p <;> cases ev <;> cases u <;> cases c <;> decide

/-- C13. `progress_bar` leaves its loop through the break only: in every reachable
state in which it has returned `download_complete` is true; a step takes it to
its end only from the break of line 832, to the break only from line 831, and to
line 831 only from a test of the 10 ms wait made with `download_complete` true. -/
theorem progress_bar_exits_only_on_completion (s : State) (h : Reachable s) :
    (s.ppc = .done → s.download_complete = true) ∧
    ∀ ev t, progress_bar s ev = some t →
      (t.ppc = .done → s.ppc = .breakUnlock) ∧
      (t.ppc = .breakUnlock → s.ppc = .printEnded) ∧
      (t.ppc = .printEnded →
        s.download_complete = true ∧ (s.ppc = .waitComplete ∨ s.ppc = .lastCheckComplete)) := by
  refine ⟨fun hd => h.inv.pSaw (by rw [hd]; rfl), fun ev t hs => ?_⟩
  obtain ⟨hp, -⟩ := progress_bar_succ ev hs
  have hne : ∀ p : PPc, s.ppc = p → p = .done ∨ p = .breakUnlock ∨ p = .printEnded →
      t.ppc ≠ p := by
    intro p hsp hp3 htp
    unfold progress_bar at hs
    rcases hp3 with rfl | rfl | rfl <;> cases ev <;> simp [hsp] at hs <;>
      (cases hs; simp at htp)
  obtain ⟨h1, h2, h3⟩ := PPc.succ_done s.ppc ev s.string_updated s.download_complete
  rw [← hp] at h1 h2 h3
  refine ⟨fun ht => ?_, fun ht => ?_, fun ht => ?_⟩
  · rcases h1 ht with h' | h'
    · exact h'
    · exact absurd ht (hne _ h' (Or.inl rfl))
  · rcases h2 ht with h' | h'
    · exact h'
    · exact absurd ht (hne _ h' (Or.inr (Or.inl rfl)))
  · rcases h3 ht with h' | h'
    · exact h'
    · exact absurd ht (hne _ h' (Or.inr (Or.inr rfl)))

theorem progress_bar_exits_only_on_completion_witness :
    interleavedFinal.ppc = .done ∧ interleavedFinal.download_complete = true :=
  ⟨by decide,
    (progress_bar_exits_only_on_completion interleavedFinal interleavedFinal_reachable).1
      (by decide)⟩

/-- A thread that owns a mutex can execute its next statement, unless it is
`process_data` waiting for `print_mut` inside its critical section. -/
theorem owner_step_enabled (s : State) :
    (s.ppc.holdsPrint = true ∨ s.ppc.holdsData = true →
      (step s (.progress .go)).isSome = true) ∧
    (s.dpc.holdsPrint = true → (step s (.process .go)).isSome = true) := by
  refine ⟨fun hp => ?_, fun hd => ?_⟩
  · rcases hp with hp | hp
    · obtain ⟨h1, h2, h3, h4⟩ := PPc.holdsPrint_free _ hp
      exact progress_bar_go_enabled h1 h2 (by simp [h3]) (by simp [h4])
    · obtain ⟨h1, h2, h3, h4⟩ := PPc.holdsData_free _ hp
      exact progress_bar_go_enabled h1 h2 (by simp [h3]) (by simp [h4])
  · obtain ⟨h1, h2, h3, h4⟩ := DPc.holdsPrint_free_dpc _ hd
    exact process_data_go_enabled h1 h2 (by simp [h3]) (by simp [h4])

/-- When `print_mut` is taken, its owner can execute its next statement. -/
theorem Inv.print_owner_enabled {s : State} (h : Inv s) (hn : s.print_mut ≠ none)
    (hF : s.fpc.holdsPrint = false) :
    ∃ a : Action, a.fair = true ∧ (ThreadSync.step s a).isSome = true := by
  cases hD : s.dpc.holdsPrint with
  | true => exact ⟨.process .go, rfl, (owner_step_enabled s).2 hD⟩
  | false =>
    exact ⟨.progress .go, rfl,
      (owner_step_enabled s).1 (Or.inl (h.printP.mp (h.print_owner_progress hn hF hD)))⟩

/-- When `data_lock` is taken by another thread than `fetch_data`, and `fetch_data`
does not own `print_mut`, some thread can execute its next statement. -/
theorem Inv.data_owner_enabled {s : State} (h : Inv s) (hn : s.data_lock ≠ none)
    (hF : s.fpc.holdsData = false) (hFp : s.fpc.holdsPrint = false) :
    ∃ a : Action, a.fair = true ∧ (ThreadSync.step s a).isSome = true := by
  cases hD : s.dpc.holdsData with
  | false =>
    exact ⟨.progress .go, rfl,
      (owner_step_enabled s).1 (Or.inr (h.lockP.mp (h.data_owner_progress hn hF hD)))⟩
  | true =>
    obtain ⟨h1, h2, h3, h4⟩ := DPc.holdsData_free_dpc _ hD
    by_cases hen : (ThreadSync.step s (.process .go)).isSome = true
    · exact ⟨.process .go, rfl, hen⟩
    · rcases process_disabled_cases h1 h2 hen with ⟨hw, hp⟩ | ⟨hw, -⟩
      · exact h.print_owner_enabled hp hFp
      · rw [h3] at hw
        cases hw

/-- In a state that satisfies the invariant and in which some thread has not
returned, a statement or a timeout is enabled. -/
theorem Inv.fair_step_enabled {s : State} (h : Inv s) (hnd : allDone s = false) :
    ∃ a : Action, a.fair = true ∧ (ThreadSync.step s a).isSome = true := by
  by_cases hF : s.fpc = .done
  · have hFp : s.fpc.holdsPrint = false := by rw [hF]; rfl
    have hFd : s.fpc.holdsData = false := by rw [hF]; rfl
    by_cases hD : s.dpc = .done
    · have hP : s.ppc ≠ .done := by
        intro hP
        simp [allDone, hF, hD, hP] at hnd
      cases hb : s.ppc.blocked with
      | true => exact ⟨.progress .timeout, rfl, progress_bar_timeout_enabled.mpr hb⟩
      | false =>
        refine ⟨.progress .go, rfl, progress_bar_go_enabled hP hb (fun hw => ?_) (fun hw => ?_)⟩
        · by_contra hne
          have ho := h.print_owner_progress hne hFp (by rw [hD]; rfl)
          have hh := h.printP.mp ho
          rw [(PPc.wants_free_ppc _).1 hw] at hh
          cases hh
        · by_contra hne
          have ho := h.data_owner_progress hne hFd (by rw [hD]; rfl)
          have hh := h.lockP.mp ho
          rw [(PPc.wants_free_ppc _).2 hw] at hh
          cases hh
    · have hb : s.dpc.blocked = false :=
        (DPc.blocked_iff _).mpr (h.noMiss (by rw [hF]; rfl))
      by_cases hen : (ThreadSync.step s (.process .go)).isSome = true
      · exact ⟨.process .go, rfl, hen⟩
      · rcases process_disabled_cases hD hb hen with ⟨hw, hp⟩ | ⟨hw, hp⟩
        · exact h.print_owner_enabled hp hFp
        · exact h.data_owner_enabled hp hFd hFp
  · by_cases hen : (ThreadSync.step s (.fetch .progress)).isSome = true
    · exact ⟨.fetch .progress, rfl, hen⟩
    · rcases fetch_disabled_cases hF hen with ⟨hw, hp⟩ | ⟨hw, hp⟩
      · exact h.print_owner_enabled hp ((FPc.wants_free _).1 hw).2
      · exact h.data_owner_enabled hp ((FPc.wants_free _).2 hw).2.1 ((FPc.wants_free _).2 hw).2.2

/-- C17. Deadlock freedom of the trio: in every reachable state either the three
threads have returned or some thread has an enabled step, and that step is a
statement or a timeout, not a spurious wake-up; `progress_bar`, when blocked in
a wait, can leave it by its timeout; and once `fetch_data` has executed the
`notify_all` of line 803, `process_data` is not blocked in its wait. -/
theorem trio_deadlock_free (s : State) (h : Reachable s) :
    (allDone s = true ∨ ∃ a : Action, a.fair = true ∧ (step s a).isSome = true) ∧
    (s.ppc.blocked = true → (step s (.progress .timeout)).isSome = true) ∧
    (s.fpc.notified = true → s.dpc.blocked = false) := by
  refine ⟨?_, fun hb => progress_bar_timeout_enabled.mpr hb,
    fun hn => (DPc.blocked_iff _).mpr (h.inv.noMiss hn)⟩
  cases hd : allDone s with
  | true => exact Or.inl rfl
  | false => exact Or.inr (h.inv.fair_step_enabled hd)

theorem trio_deadlock_free_witness :
    allDone bothWaiting = false ∧
      ∃ a : Action, a.fair = true ∧ (step bothWaiting a).isSome = true :=
  ⟨by decide,
    (trio_deadlock_free bothWaiting
      (Reachable.run bothWaitingSchedule Reachable.start (by decide))).1.resolve_left
      (by decide)⟩

/-- C18. Where the code stands: after `earlyTimeoutSchedule`, in which the 2 s wait
of `progress_bar` has timed out and returned, `progress_bar` is at line 820 and
owns `data_lock`, but `string_updated` and `download_complete` are both false. -/
theorem timed_wait_returns_without_update :
    run init earlyTimeoutSchedule = some earlyTimeout ∧
      earlyTimeout.ppc = .readLen ∧ earlyTimeout.data_lock = some .progress ∧
      earlyTimeout.string_updated = false ∧ earlyTimeout.download_complete = false := by
  decide

/-! ## The chunks of the buffer and the update flag (C21, C22) -/

@[simp] theorem PPc.wake_hasReadLen (p : PPc) : p.wake.hasReadLen = p.hasReadLen := by
  cases p <;> rfl

@[simp] theorem PPc.wake_hasReset (p : PPc) : p.wake.hasReset = p.hasReset := by
  cases p <;> rfl

theorem PPc.hasReadLen_holdsData (p : PPc) :
    p.holdsData = false → p.hasReadLen = false ∧ p.hasReset = false := by
  cases p <;> decide

theorem FPc.hasAppended_holdsData (p : FPc) :
    p.holdsData = false → p.hasAppended = false ∧ p.hasSet = false := by
  cases p <;> decide

/-- The critical sections of `fetch_data` and `progress_bar` exclude each other. -/
theorem Inv.critical_sections_exclusive {s : State} (h : Inv s) :
    (s.fpc.holdsData = true → s.ppc.hasReadLen = false ∧ s.ppc.hasReset = false) ∧
    (s.ppc.holdsData = true → s.fpc.hasAppended = false ∧ s.fpc.hasSet = false) := by
  constructor
  · intro hf
    apply PPc.hasReadLen_holdsData
    cases hp : s.ppc.holdsData with
    | false => rfl
    | true =>
      have h1 := h.lockF.mpr hf
      have h2 := h.lockP.mpr hp
      rw [h1] at h2
      cases h2
  · intro hp
    apply FPc.hasAppended_holdsData
    cases hf : s.fpc.holdsData with
    | false => rfl
    | true =>
      have h1 := h.lockF.mpr hf
      have h2 := h.lockP.mpr hp
      rw [h1] at h2
      cases h2

theorem Fresh.holds_initially : Fresh init := by
  constructor <;> simp +decide [ThreadSync.init]

set_option maxHeartbeats 1000000 in
theorem Fresh.preserved {s t : State} (a : Action) (hi : Inv s) (h : Fresh s)
    (hs : step s a = some t) : Fresh t := by
  have h1 := h.quiet; have h2 := h.grown; have h3 := h.flagSet
  have h4 := h.seen; have h5 := h.flagReset
  have hle := hi.len_le
  have hx1 := hi.critical_sections_exclusive.1
  have hx2 := hi.critical_sections_exclusive.2
  clear h hi
  cases a with
  | fetch pick =>
    simp only [step, fetch_data] at hs
    cases hpc : s.fpc <;> simp only [hpc] at hs
    case notifyOne =>
      obtain ⟨p, d, hp, hd, he⟩ := notify_one_eq s pick
      rw [he] at hs
      cases hs
      rcases hp with rfl | rfl <;>
        (constructor <;> simp_all +decide [FPc.hasAppended, FPc.hasSet, FPc.holdsData])
    all_goals (try split at hs)
    all_goals (try cases hs)
    all_goals (constructor <;> simp_all +decide [FPc.hasAppended, FPc.hasSet, FPc.holdsData,
      notify_all, String.length_append])
    all_goals
      have hb : "Block".length = 5 := by decide
      omega
  | progress ev =>
    simp only [step, progress_bar] at hs
    cases hpc : s.ppc <;> cases ev <;> simp only [hpc] at hs
    all_goals (try split at hs)
    all_goals (try cases hs)
    all_goals (constructor <;> simp_all +decide [PPc.hasReadLen, PPc.hasReset, PPc.holdsData,
      mustBlock])
  | process ev =>
    simp only [step, process_data] at hs
    cases hpc : s.dpc <;> cases ev <;> simp only [hpc] at hs
    all_goals (try split at hs)
    all_goals (try cases hs)
    all_goals (constructor <;> simp_all +decide [mustBlock])

theorem Reachable.fresh {s : State} (h : Reachable s) : Fresh s := by
  induction h with
  | start => exact Fresh.holds_initially
  | next a hr hs ih => exact ih.preserved a hr.inv hs

/-- C22. In every reachable state of the trio in which `data_lock` is free,
`string_updated` is true exactly when `downloaded_data` is longer than the
length `progress_bar` last read into `len`. -/
theorem string_updated_iff_unseen_growth (s : State) (h : Reachable s)
    (hfree : s.data_lock = none) :
    s.string_updated = true ↔ s.len < s.downloaded_data.length := by
  have hi := h.inv
  have hf : s.fpc.holdsData = false := by
    cases hc : s.fpc.holdsData with
    | false => rfl
    | true =>
      have := hi.lockF.mpr hc
      rw [hfree] at this
      cases this
  have hp : s.ppc.holdsData = false := by
    cases hc : s.ppc.holdsData with
    | false => rfl
    | true =>
      have := hi.lockP.mpr hc
      rw [hfree] at this
      cases this
  exact h.fresh.quiet (FPc.hasAppended_holdsData _ hf).1 (PPc.hasReadLen_holdsData _ hp).1

theorem afterIterations_reachable (k : Nat) (hk : k ≤ 5) : Reachable (afterIterations k) := by
  have hr : run init (iterationsSchedule k) = some (afterIterations k) := by
    interval_cases k <;> decide
  exact Reachable.run (iterationsSchedule k) Reachable.start hr

theorem string_updated_iff_unseen_growth_witness :
    (afterIterations 1).data_lock = none ∧ (afterIterations 1).len = 0 ∧
      (afterIterations 1).downloaded_data = "Block1" ∧
      ((afterIterations 1).string_updated = true ↔
        (afterIterations 1).len < (afterIterations 1).downloaded_data.length) :=
  ⟨by decide, by decide, by decide,
    string_updated_iff_unseen_growth (afterIterations 1)
      (afterIterations_reachable 1 (by decide)) (by decide)⟩

theorem blocks_eq_chunks (k : Nat) (hk : k ≤ 5) : blocks k = chunks k := by
  interval_cases k <;> decide

/-- A step either leaves `downloaded_data` unchanged or is line 788 of
`fetch_data`, which appends the chunk of the current iteration. -/
theorem step_appends {s t : State} (a : Action) (hs : step s a = some t) :
    t.downloaded_data = s.downloaded_data ∨
    (a.actor = .fetcher ∧ s.fpc = .append ∧
      t.downloaded_data = s.downloaded_data ++ ("Block" ++ toString (s.i + 1))) := by
  cases a with
  | fetch pick =>
    simp only [step, fetch_data] at hs
    cases hpc : s.fpc <;> simp only [hpc] at hs
    case notifyOne =>
      obtain ⟨p, d, -, -, he⟩ := notify_one_eq s pick
      rw [he] at hs
      cases hs
      exact Or.inl rfl
    case append =>
      cases hs
      exact Or.inr ⟨rfl, rfl, rfl⟩
    all_goals (try split at hs)
    all_goals (try cases hs)
    all_goals exact Or.inl rfl
  | progress ev =>
    simp only [step, progress_bar] at hs
    cases hpc : s.ppc <;> cases ev <;> simp only [hpc] at hs
    all_goals (try split at hs)
    all_goals (try cases hs)
    all_goals exact Or.inl rfl
  | process ev =>
    simp only [step, process_data] at hs
    cases hpc : s.dpc <;> cases ev <;> simp only [hpc] at hs
    all_goals (try split at hs)
    all_goals (try cases hs)
    all_goals exact Or.inl rfl

/-- C21. For every `k` from 0 to 5: `fetch_data` reaches the loop test with `k`
iterations completed; in every reachable state in which it has performed `k`
appends, in particular at the loop test with `i = k`, `downloaded_data` is the
concatenation of `Block1`, ..., `Blockk` and has length `6 * k`; and a step
either leaves `downloaded_data` unchanged or appends one chunk to it. -/
theorem fetch_data_appends_chunks (k : Nat) (hk : k ≤ 5) :
    (∃ s, Reachable s ∧ s.fpc = .loopTest ∧ s.i = k) ∧
    (∀ s, Reachable s → (s.fpc.appended s.i = k ∨ (s.fpc = .loopTest ∧ s.i = k)) →
      s.downloaded_data = chunks k ∧ s.downloaded_data.length = 6 * k) ∧
    (∀ s a t, Reachable s → step s a = some t →
      t.downloaded_data = s.downloaded_data ∨
        t.downloaded_data = s.downloaded_data ++ ("Block" ++ toString (s.i + 1))) := by
  refine ⟨⟨afterIterations k, afterIterations_reachable k hk, ?_, ?_⟩, ?_, ?_⟩
  · interval_cases k <;> decide
  · interval_cases k <;> decide
  · intro s h hs
    have hk' : s.fpc.appended s.i = k := by
      rcases hs with hs | ⟨hf, hi⟩
      · exact hs
      · rw [hf, ← hi]; rfl
    have hd := h.inv.data
    rw [hk'] at hd
    rw [hd, blocks_length k hk, blocks_eq_chunks k hk]
    exact ⟨rfl, rfl⟩
  · intro s a t _ hs
    rcases step_appends a hs with h | ⟨-, -, h⟩
    · exact Or.inl h
    · exact Or.inr h

theorem fetch_data_appends_chunks_witness :
    (afterIterations 2).fpc = .loopTest ∧ (afterIterations 2).i = 2 ∧
      (afterIterations 2).downloaded_data = "Block1Block2" ∧
      (afterIterations 2).downloaded_data = chunks 2 ∧
      (afterIterations 2).downloaded_data.length = 6 * 2 :=
  ⟨by decide, by decide, by decide,
    ((fetch_data_appends_chunks 2 (by decide)).2.1 (afterIterations 2)
      (afterIterations_reachable 2 (by decide)) (Or.inr ⟨by decide, by decide⟩)).1,
    ((fetch_data_appends_chunks 2 (by decide)).2.1 (afterIterations 2)
      (afterIterations_reachable 2 (by decide)) (Or.inr ⟨by decide, by decide⟩)).2⟩

end ThreadSync

namespace Solution

theorem LockScopes.startWith (c : Bool) : LockScopes (startWith c) := by
  constructor <;> simp +decide [Solution.startWith, start, init]

set_option maxHeartbeats 2000000 in
theorem LockScopes.after_step {s t : State} (a : Action) (h : LockScopes s) (hs : step s a = some t) :
    LockScopes t := by
  have h1 := h.dataF; have h2 := h.dataP; have h3 := h.dataD
  have h4 := h.complF; have h5 := h.complP; have h6 := h.complD
  have h7 := h.otherF; have h8 := h.otherP; have h9 := h.otherD
  clear h
  cases a with
  | fetch =>
    simp only [step, fetchData] at hs
    cases hpc : s.fpc <;> simp only [hpc] at hs
    all_goals (try split at hs)
    all_goals (try cases hs)
    all_goals (constructor <;> simp_all +decide [ThreadSync.mustBlock])
  | progress ev =>
    simp only [step, progressBar] at hs
    cases hpc : s.ppc <;> cases ev <;> simp only [hpc] at hs
    all_goals (try split at hs)
    all_goals (try cases hs)
    all_goals (constructor <;> simp_all +decide [ThreadSync.mustBlock])
  | process ev =>
    simp only [step, processData] at hs
    cases hpc : s.dpc <;> cases ev <;> simp only [hpc] at hs
    all_goals (try split at hs)
    all_goals (try cases hs)
    all_goals (constructor <;> simp_all +decide [ThreadSync.mustBlock])

theorem ReachableFrom.lockScopes {c : Bool} {s : State} (h : ReachableFrom (startWith c) s) :
    LockScopes s := by
  induction h with
  | start => exact LockScopes.startWith c
  | next a _ hs ih => exact ih.after_step a hs

theorem ReachableFrom.after_run {s₀ s t : State} (sched : List Action) (h : ReachableFrom s₀ s)
    (hr : Solution.run s sched = some t) : ReachableFrom s₀ t := by
  induction sched generalizing s with
  | nil => cases hr; exact h
  | cons a as ih =>
    simp only [Solution.run] at hr
    cases hst : step s a with
    | none => simp [hst] at hr
    | some u =>
      rw [hst] at hr
      exact ih (ReachableFrom.next a h hst) hr

theorem LockScopes.heldBy_le {s : State} (h : LockScopes s) (t : Tid) :
    heldBy s t ≤ 1 ∧ (locks s t = true → heldBy s t = 0) := by
  have h1 := h.dataF; have h2 := h.dataP; have h3 := h.dataD
  have h4 := h.complF; have h5 := h.complP; have h6 := h.complD
  have h7 := h.otherF; have h8 := h.otherP; have h9 := h.otherD
  clear h
  cases t with
  | fetcher => cases hf : s.fpc <;> simp_all +decide [heldBy, locks]
  | progress => cases hf : s.ppc <;> simp_all +decide [heldBy, locks]
  | processor => cases hf : s.dpc <;> simp_all +decide [heldBy, locks]

/-- A step after which its thread owns more mutexes than before is made from a
program point whose statement locks a mutex. -/
theorem step_acquires {s t : State} (a : Action) (hs : step s a = some t)
    (hlt : heldBy s a.actor < heldBy t a.actor) : locks s a.actor = true := by
  cases a with
  | fetch =>
    simp only [step, fetchData] at hs
    cases hpc : s.fpc <;> simp only [hpc] at hs
    all_goals (try split at hs)
    all_goals (try cases hs)
    all_goals (first | (simp [locks, hpc, FPc.locks, Action.actor]; done) |
      (exfalso; simp only [heldBy, Action.actor] at hlt; split_ifs at hlt <;>
        first | omega | simp_all))
  | progress ev =>
    simp only [step, progressBar] at hs
    cases hpc : s.ppc <;> cases ev <;> simp only [hpc] at hs
    all_goals (try split at hs)
    all_goals (try cases hs)
    all_goals (first | (simp [locks, hpc, PPc.locks, Action.actor]; done) |
      (exfalso; simp only [heldBy, Action.actor] at hlt; split_ifs at hlt <;>
        first | omega | simp_all))
  | process ev =>
    simp only [step, processData] at hs
    cases hpc : s.dpc <;> cases ev <;> simp only [hpc] at hs
    all_goals (try split at hs)
    all_goals (try cases hs)
    all_goals (first | (simp [locks, hpc, DPc.locks, Action.actor]; done) |
      (exfalso; simp only [heldBy, Action.actor] at hlt; split_ifs at hlt <;>
        first | omega | simp_all))

/-- C14. The signal locks are never nested: in every state of the second pipeline
reachable from its start, whatever the value of `completed` there, no thread
owns more than one of `dataMutex`, `completedMutex` and `completed_mutex`; a
thread whose next statement locks a mutex owns none; and a step that makes a
thread own one mutex more is such a statement. -/
theorem signal_locks_never_nested (c : Bool) (s : State) (h : ReachableFrom (startWith c) s) :
    (∀ t, heldBy s t ≤ 1 ∧ (locks s t = true → heldBy s t = 0)) ∧
    ∀ a t, step s a = some t → heldBy s a.actor < heldBy t a.actor →
      locks s a.actor = true ∧ heldBy s a.actor = 0 ∧ heldBy t a.actor = 1 :=
  ⟨fun t => h.lockScopes.heldBy_le t, fun a t hs hlt =>
    ⟨step_acquires a hs hlt, (h.lockScopes.heldBy_le a.actor).2 (step_acquires a hs hlt), by
      have h1 := ((h.lockScopes.after_step a hs).heldBy_le a.actor).1
      omega⟩⟩

theorem signal_locks_never_nested_witness :
    pastWait.dpc = .coutData ∧ pastWait.dataMutex = some .processor ∧
      heldBy pastWait .processor ≤ 1 :=
  ⟨by decide, by decide,
    ((signal_locks_never_nested true pastWait
      (ReachableFrom.after_run pastWaitSchedule ReachableFrom.start (by decide))).1 .processor).1⟩

/-- No step of the second pipeline assigns `completed`. -/
theorem step_completed {s t : State} (a : Action) (hs : step s a = some t) :
    t.completed = s.completed := by
  cases a with
  | fetch =>
    simp only [step, fetchData] at hs
    cases hpc : s.fpc <;> simp only [hpc] at hs
    all_goals (try split at hs)
    all_goals (try cases hs)
    all_goals rfl
  | progress ev =>
    simp only [step, progressBar] at hs
    cases hpc : s.ppc <;> cases ev <;> simp only [hpc] at hs
    all_goals (try split at hs)
    all_goals (try cases hs)
    all_goals rfl
  | process ev =>
    simp only [step, processData] at hs
    cases hpc : s.dpc <;> cases ev <;> simp only [hpc] at hs
    all_goals (try split at hs)
    all_goals (try cases hs)
    all_goals rfl

/-- While `completed` is false, a step keeps `processData` before the end of its
wait and leaves `processed` empty. -/
theorem step_before_wait {s t : State} (a : Action) (hs : step s a = some t)
    (hc : s.completed = false) (hp : s.dpc.pastWait = false) (hr : s.processed = none) :
    t.dpc.pastWait = false ∧ t.processed = none := by
  cases a with
  | fetch =>
    simp only [step, fetchData] at hs
    cases hpc : s.fpc <;> simp only [hpc] at hs
    all_goals (try split at hs)
    all_goals (try cases hs)
    all_goals exact ⟨hp, hr⟩
  | progress ev =>
    simp only [step, progressBar] at hs
    cases hpc : s.ppc <;> cases ev <;> simp only [hpc] at hs
    all_goals (try split at hs)
    all_goals (try cases hs)
    all_goals exact ⟨hp, hr⟩
  | process ev =>
    simp only [step, processData] at hs
    cases hpc : s.dpc <;> cases ev <;> simp only [hpc] at hs hp
    all_goals (try (exact absurd hp (by decide)))
    all_goals (try split at hs)
    all_goals (try cases hs)
    all_goals (first | exact ⟨rfl, hr⟩ | simp_all +decide [ThreadSync.mustBlock])

theorem ReachableFrom.before_wait {s : State} (h : ReachableFrom Solution.start s) :
    s.completed = false ∧ s.dpc.pastWait = false ∧ s.processed = none := by
  induction h with
  | start => exact ⟨rfl, rfl, rfl⟩
  | next a _ hs ih =>
    exact ⟨(step_completed a hs).trans ih.1, step_before_wait a hs ih.1 ih.2.1 ih.2.2⟩

/-- C15. The wrong flag: the wait of `processData` tests `completed`, which no step
of the second pipeline assigns, while `fetchData` sets `completedTask`.  In
every state reachable from `start`, `completed` is false, `processData` has
not got past its wait, has not read `sharedData` and has not returned; and
whenever it tests its predicate it blocks. -/
theorem processData_never_passes_its_wait (s : State) (h : ReachableFrom start s) :
    s.completed = false ∧ s.dpc.pastWait = false ∧ s.processed = none ∧ s.dpc ≠ .done ∧
    (∀ a t, step s a = some t → t.completed = s.completed) ∧
    (s.dpc = .waitCompleted →
      (processData s .go).map (·.dpc) = some .blockedCompleted) := by
  obtain ⟨h1, h2, h3⟩ := h.before_wait
  refine ⟨h1, h2, h3, ?_, fun a t hs => step_completed a hs, fun hd => ?_⟩
  · intro hd
    rw [hd] at h2
    cases h2
  · simp [processData, hd, ThreadSync.mustBlock, h1]

theorem processData_never_passes_its_wait_witness :
    producerFinished.fpc = .done ∧ producerFinished.completedTask = true ∧
      producerFinished.dpc = .blockedCompleted ∧
      producerFinished.completed_cv = [.processor] ∧
      producerFinished.completed = false ∧ producerFinished.processed = none :=
  ⟨by decide, by decide, by decide, by decide,
    (processData_never_passes_its_wait producerFinished
      (ReachableFrom.after_run producerFinishedSchedule ReachableFrom.start (by decide))).1,
    (processData_never_passes_its_wait producerFinished
      (ReachableFrom.after_run producerFinishedSchedule ReachableFrom.start (by decide))).2.2.1⟩

/-- C16. Where the code stands: after `racingSchedule`, `fetchData` is about to
write `completedTask` (line 891) and owns `completedMutex`, while `progressBar`
is about to read it in the predicate of line 921 and owns `completed_mutex`,
another mutex; both steps are enabled, and the outcome of the read depends on
which comes first. -/
theorem completedTask_read_under_another_mutex :
    run start racingSchedule = some racing ∧
    racing.fpc = .setCompleted ∧ racing.completedMutex = some .fetcher ∧
    racing.ppc = .waitCompleted ∧ racing.completed_mutex = some .progress ∧
    (step racing .fetch).map (·.completedTask) = some true ∧
    (step racing (.progress .go)).map (·.ppc) = some .blockedCompleted ∧
    ((step racing .fetch).bind fun t => (step t (.progress .go)).map (·.ppc)) =
      some .coutEnded := by
  decide

/-- In every reachable state of the second pipeline `progressBar` does not own
`completedMutex`, the mutex under which `fetchData` writes `completedTask`. -/
theorem ReachableFrom.progressBar_without_completedMutex {c : Bool} {s : State}
    (h : ReachableFrom (startWith c) s) : s.completedMutex ≠ some .progress :=
  h.lockScopes.complP

end Solution

namespace NoPredicate

/-! ## A notification sent before the wait is lost (C20) -/

/-- C20: there is an interleaving of `reader` and `writer` in which the writer
locks `mut`, sets `sdata`, unlocks and calls `notify_one` before the reader
calls `wait`; it ends in a state where the writer has terminated, the reader is
blocked on `cond_var`, `mut` is free, and no step other than a spurious wake-up
of the reader is enabled: the notification was sent to an empty list of waiters
and is not remembered. -/
theorem lost_wakeup_without_predicate :
    run init lostWakeupSchedule = some lostWakeup ∧
    run init (List.replicate 9 .writer) =
      some { init with sdata := "populated", wpc := .done,
                       console := [(.writer, "Writer thread locking mutex"),
                                   (.writer, "Writer thread has locked the mutex"),
                                   (.writer, "Writer thread modifying data...."),
                                   (.writer, "Writer thread sends notification")] } ∧
    lostWakeup.wpc = .done ∧ lostWakeup.rpc = .blocked ∧
    lostWakeup.cond_var = [.reader] ∧ lostWakeup.mutex = none ∧
    lostWakeup.sdata = "populated" ∧ lostWakeup.shown = none ∧
    ∀ a : Action, a ≠ .reader .spurious → step lostWakeup a = none := by
  refine ⟨by decide, by decide, by decide, by decide, by decide, by decide, by decide,
    by decide, ?_⟩
  intro a ha
  cases a with
  | writer => decide
  | reader ev => cases ev <;> first | decide | exact absurd rfl ha

end NoPredicate

namespace WithPredicate

/-! ## The two functions name different condition variables (C19) -/

theorem writer_keeps_cond_var (s t : State) (h : writer_with_condition_variable s = some t) :
    t.cond_var = s.cond_var := by
  unfold writer_with_condition_variable at h
  split at h <;> first | (split_ifs at h; simp at h; subst h; rfl) | (simp at h; subst h; rfl) | simp at h

theorem DataInv.data_step {s t : State} (a : Action) (h : DataInv s) (hs : step s a = some t) :
    DataInv t := by
  have h1 := h.wrote
  have h2 := h.flag
  have h3 := h.past
  have h4 := h.shown
  cases a with
  | writer =>
    simp only [step, writer_with_condition_variable] at hs
    split at hs <;> (try split_ifs at hs) <;> simp at hs <;> subst hs <;>
      constructor <;> simp_all +decide [WPc.wrote, RPc.pastWait] <;> assumption
  | reader ev =>
    simp only [step, reader_with_condition_variable, ThreadSync.mustBlock] at hs
    split at hs <;> (try split_ifs at hs) <;> simp at hs <;> subst hs <;>
      constructor <;> simp_all +decide [WPc.wrote, RPc.pastWait] <;> assumption

theorem Reachable.dataInv {s : State} (h : Reachable s) : DataInv s := by
  induction h with
  | start => constructor <;> simp +decide [init]
  | next a _ hs ih => exact ih.data_step a hs

/-- C19: with the reader first, `reader_with_condition_variable` blocks on
`cond_var` (line 715) and `writer_with_condition_variable` notifies
`cond_variable` (line 752): the writer finishes with the flag set and the data
written, and the reader is still blocked in its wait, with no step enabled
other than a spurious wake-up. -/
theorem writer_done_reader_still_blocked :
    run init readerFirstSchedule = some readerFirst ∧
    readerFirst.wpc = .done ∧ readerFirst.rpc = .blocked ∧
    readerFirst.condition = true ∧ readerFirst.shared_data = "Populated" ∧
    readerFirst.cond_var = [.reader] ∧ readerFirst.cond_variable = [] ∧
    readerFirst.shared_data_mut = none ∧ readerFirst.shown = none ∧
    ∀ a : Action, a ≠ .reader .spurious → step readerFirst a = none := by
  refine ⟨by decide, by decide, by decide, by decide, by decide, by decide, by decide,
    by decide, by decide, ?_⟩
  intro a ha
  cases a with
  | writer => decide
  | reader ev => cases ev <;> first | decide | exact absurd rfl ha

theorem Reachable.shown_populated {s : State} (h : Reachable s) (d : String)
    (hd : s.shown = some d) : d = "Populated" :=
  h.dataInv.shown d hd

theorem writer_first_reads_populated :
    run init writerFirstSchedule = some writerFirst ∧
    writerFirst.rpc = .done ∧ writerFirst.wpc = .done ∧
    writerFirst.shown = some "Populated" := by
  decide

end WithPredicate

namespace ThreadSafeQueue

/-! ## The unlocked test of `try_pop`, and the queue used by one thread (C23, C24) -/

theorem run_push_alone (q : List Int) (val : Int) :
    run (start q [.push val]) [0, 0, 0] =
      some { q := push q val, m := none,
             threads := [{ pc := .done, val := val, result := none }], undefined := false } := by
  rfl

theorem run_try_pop_alone (q : List Int) (val : Int) :
    ∃ n, run (start q [.try_pop val]) (List.replicate n 0) =
      some { q := (try_pop q val).2.2, m := none,
             threads := [{ pc := .done, val := (try_pop q val).2.1,
                           result := some (try_pop q val).1 }],
             undefined := false } := by
  cases q with
  | nil => exact ⟨2, rfl⟩
  | cons x rest => exact ⟨5, rfl⟩

theorem pushAll_eq (q xs : List Int) : pushAll q xs = q ++ xs := by
  induction xs generalizing q with
  | nil => simp [pushAll]
  | cons x xs ih =>
    have h : pushAll q (x :: xs) = pushAll (push q x) xs := rfl
    rw [h, ih, push, List.append_assoc]
    rfl

theorem popMany_all (xs : List Int) (val : Int) :
    popMany xs.length xs val = (xs.map fun x => (true, x), []) := by
  induction xs generalizing val with
  | nil => rfl
  | cons x xs ih =>
    have h1 : try_pop (x :: xs) val = (true, x, xs) := rfl
    simp only [List.length_cons, popMany, h1, ih, List.map_cons]

/-- C23. Where the code stands: `try_pop` tests `q.empty()` on line 259 before it
locks `m` on line 262.  In `unlockedTest` thread 0 is inside `push` and owns
`m`, and thread 1 can execute the test.  In `racingPops` two calls of `try_pop`
have both found the queue non-empty; the first has removed the only element,
and the second, now the owner of `m`, executes `q.front()` on the empty queue. -/
theorem try_pop_tests_empty_before_locking :
    (run (start [] [.push 7, .try_pop 0]) unlockedTestSchedule = some unlockedTest ∧
      unlockedTest.m = some 0 ∧ unlockedTest.threads[1]?.map (·.pc) = some .popEmpty ∧
      ((step unlockedTest 1).bind fun s => s.threads[1]?.map (·.pc)) = some .popFalse) ∧
    (run (start [] [.push 7, .try_pop 0, .try_pop 0]) racingPopsSchedule = some racingPops ∧
      racingPops.q = [] ∧ racingPops.m = some 2 ∧ racingPops.undefined = false ∧
      racingPops.threads[2]?.map (·.pc) = some .popFront ∧
      (step racingPops 2).map (·.undefined) = some true ∧
      (run racingPops [2, 2, 2]).map (·.threads.map (·.result)) =
        some [none, some true, some true]) := by
  decide

/-- C24. Sequentially `ThreadSafeQueue` is a FIFO queue: `try_pop` on an empty
queue returns false and changes neither `val` nor the queue; on a queue whose
oldest element is `x` it returns true, stores `x` in `val` and removes `x`, also
when further elements have been pushed behind it; after `push` of `xs` on the
empty queue, as many calls of `try_pop` as `xs` has elements return true with
the elements of `xs` in order, and the next call returns false. -/
theorem try_pop_returns_oldest_element (q xs : List Int) (x val : Int) :
    try_pop [] val = (false, val, []) ∧
    try_pop (pushAll (x :: q) xs) val = (true, x, pushAll q xs) ∧
    popMany xs.length (pushAll [] xs) val = (xs.map fun y => (true, y), []) ∧
    try_pop (popMany xs.length (pushAll [] xs) val).2 val = (false, val, []) := by
  have h : popMany xs.length (pushAll [] xs) val = (xs.map fun y => (true, y), []) := by
    rw [pushAll_eq, List.nil_append, popMany_all]
  refine ⟨rfl, ?_, h, ?_⟩
  · rw [pushAll_eq, pushAll_eq]
    rfl
  · rw [h]
    rfl

end ThreadSafeQueue

namespace ThreadSafeVector

/-! ## No push is lost (C25) -/

/-- Effect of a step of thread `t`: the locals of the other threads are unchanged;
`vec` is unchanged unless the step is the store of line 278; `m` is unchanged
unless `t` enters or leaves a `lock_guard` scope. -/
theorem func_effect {s u : State} (t : Tid) (hs : func s t = some u) :
    (∀ t', t' ≠ t → u.get t' = s.get t') ∧
    ((u.vec = s.vec ∧ u.pushed = s.pushed ∧ (u.get t).pushes = (s.get t).pushes ∧
        ((u.get t).pc = .pushWrite → (u.get t).pos = s.vec.length)) ∨
      ((s.get t).pc = .pushWrite ∧ (u.get t).pc = .pushUnlock ∧
        u.vec = s.vec.take (s.get t).pos ++ [((s.get t).i : Int)] ∧
        u.pushed = s.pushed.take (s.get t).pos ++ [(t, ((s.get t).i : Int))] ∧
        (s.get t).pushes = (s.get t).i ∧ (u.get t).pushes = (s.get t).i + 1)) ∧
    ((s.get t).iOk = true → (u.get t).iOk = true) ∧
    ((u.m = s.m ∧ (u.get t).pc.holdsLock = (s.get t).pc.holdsLock) ∨
      (s.m = none ∧ u.m = some t ∧ (s.get t).pc.holdsLock = false ∧
        (u.get t).pc.holdsLock = true) ∨
      (u.m = none ∧ (s.get t).pc.holdsLock = true ∧ (u.get t).pc.holdsLock = false)) := by
  simp only [func] at hs
  split at hs <;> (try split at hs) <;> simp only [Option.some.injEq, reduceCtorEq] at hs <;>
    subst hs
  all_goals refine ⟨fun t' ht' => ?_, ?_, ?_, ?_⟩
  all_goals first
    | (cases t <;> cases t' <;> first | rfl | exact absurd rfl ht')
    | (cases t <;> simp_all +decide [State.get, State.set, Local.pushes, Local.iOk, Pc.hasPushed,
        Pc.holdsLock] <;> omega)

theorem Pushes.at_init : Pushes init := by
  constructor
  · intro t; cases t <;> decide
  · intro t; cases t <;> decide
  · rfl
  · intro t; cases t <;> rfl
  · intro t; cases t <;> rfl

/-- Two threads are not inside `lock_guard` scopes at the same time. -/
theorem Pushes.exclusive {s : State} (h : Pushes s) (t t' : Tid)
    (ht : (s.get t).pc.holdsLock = true) (ht' : (s.get t').pc.holdsLock = true) : t' = t := by
  have h1 := (h.lock t).mpr ht
  have h2 := (h.lock t').mpr ht'
  rw [h1] at h2
  exact (Option.some.inj h2).symm

theorem Pushes.after_func {s u : State} (t : Tid) (h : Pushes s) (hs : func s t = some u) :
    Pushes u := by
  obtain ⟨hother, heff, hok, hm⟩ := func_effect t hs
  have hlen : s.pushed.length = s.vec.length := by rw [h.vec, List.length_map]
  -- the store of line 278 is an append: the end read by the call is still the end
  have heff' : (u.vec = s.vec ∧ u.pushed = s.pushed ∧ (u.get t).pushes = (s.get t).pushes ∧
        ((u.get t).pc = .pushWrite → (u.get t).pos = s.vec.length)) ∨
      ((s.get t).pc = .pushWrite ∧ (u.get t).pc = .pushUnlock ∧
        u.vec = s.vec ++ [((s.get t).i : Int)] ∧
        u.pushed = s.pushed ++ [(t, ((s.get t).i : Int))] ∧
        (s.get t).pushes = (s.get t).i ∧ (u.get t).pushes = (s.get t).i + 1) := by
    rcases heff with h1 | ⟨hpc, hpc', hv, hp, hn, hn'⟩
    · exact Or.inl h1
    · have hpos := h.pos t hpc
      refine Or.inr ⟨hpc, hpc', ?_, ?_, hn, hn'⟩
      · rw [hv, hpos, List.take_length]
      · rw [hp, hpos, ← hlen, List.take_length]
  have hown : ∀ t', t' ≠ t → pushedBy u t' = pushedBy s t' := by
    intro t' ht'
    rcases heff' with ⟨-, hp, -, -⟩ | ⟨-, -, -, hp, -, -⟩
    · simp [pushedBy, hp]
    · simp [pushedBy, hp, List.filter_append, Ne.symm ht']
  constructor
  · intro t'
    by_cases ht' : t' = t
    · subst ht'
      rcases hm with ⟨hm1, hm2⟩ | ⟨-, hm1, -, hm2⟩ | ⟨hm1, hm2, hm3⟩
      · rw [hm1, hm2]; exact h.lock t'
      · rw [hm1, hm2]; simp
      · rw [hm1, hm3]; simp
    · rw [hother t' ht']
      rcases hm with ⟨hm1, -⟩ | ⟨hm0, hm1, -, -⟩ | ⟨hm1, hm2, -⟩
      · rw [hm1]; exact h.lock t'
      · have hf : (s.get t').pc.holdsLock = false := by
          cases hc : (s.get t').pc.holdsLock with
          | false => rfl
          | true =>
            have := (h.lock t').mpr hc
            rw [hm0] at this
            cases this
        rw [hm1, hf]
        simp [Ne.symm ht']
      · have hf : (s.get t').pc.holdsLock = false := by
          cases hc : (s.get t').pc.holdsLock with
          | false => rfl
          | true => exact absurd (h.exclusive t t' hm2 hc) ht'
        rw [hm1, hf]
        simp
  · intro t' hpc
    by_cases ht' : t' = t
    · subst ht'
      rcases heff' with ⟨hv, -, -, hp⟩ | ⟨-, hpc', -, -, -, -⟩
      · rw [hv]; exact hp hpc
      · rw [hpc'] at hpc; cases hpc
    · rw [hother t' ht'] at hpc ⊢
      rcases heff' with ⟨hv, -, -, -⟩ | ⟨hpct, -, -, -, -, -⟩
      · rw [hv]; exact h.pos t' hpc
      · exact absurd (h.exclusive t t' (by rw [hpct]; rfl) (by rw [hpc]; rfl)) ht'
  · rcases heff' with ⟨hv, hp, -, -⟩ | ⟨-, -, hv, hp, -, -⟩
    · rw [hv, hp, h.vec]
    · rw [hv, hp, h.vec]; simp
  · intro t'
    by_cases ht' : t' = t
    · subst ht'
      rcases heff' with ⟨-, hp, hn, -⟩ | ⟨-, -, -, hp, hn, hn'⟩
      · rw [hn, ← h.own t']; simp [pushedBy, hp]
      · have := h.own t'
        rw [hn] at this
        rw [hn', List.range_succ, List.map_append, ← this]
        simp [pushedBy, hp, List.filter_append]
    · rw [hown t' ht', hother t' ht', h.own t']
  · intro t'
    by_cases ht' : t' = t
    · subst ht'; exact hok (h.iOk t')
    · rw [hother t' ht']; exact h.iOk t'

theorem Reachable.pushes {s : State} (h : Reachable s) : Pushes s := by
  induction h with
  | start => exact Pushes.at_init
  | next t _ hs ih => exact ih.after_func t hs

theorem Reachable.of_run {s u : State} (sched : List Tid) (h : Reachable s)
    (hr : run s sched = some u) : Reachable u := by
  induction sched generalizing s with
  | nil => cases hr; exact h
  | cons t ts ih =>
    simp only [ThreadSafeVector.run] at hr
    cases hst : func s t with
    | none => simp [hst] at hr
    | some v =>
      rw [hst] at hr
      exact ih (Reachable.next t h hst) hr

theorem length_eq_sum_pushedBy (l : List (Tid × Int)) :
    (l.map Prod.snd).length =
      ((l.filter fun p => p.1 = .vp1).map Prod.snd).length +
      ((l.filter fun p => p.1 = .vp2).map Prod.snd).length +
      ((l.filter fun p => p.1 = .vp3).map Prod.snd).length := by
  induction l with
  | nil => rfl
  | cons p l ih =>
    obtain ⟨t, v⟩ := p
    cases t <;> simp +decide [List.filter_cons] at ih ⊢ <;> omega

theorem count_eq_sum_pushedBy (l : List (Tid × Int)) (v : Int) :
    (l.map Prod.snd).count v =
      ((l.filter fun p => p.1 = .vp1).map Prod.snd).count v +
      ((l.filter fun p => p.1 = .vp2).map Prod.snd).count v +
      ((l.filter fun p => p.1 = .vp3).map Prod.snd).count v := by
  induction l with
  | nil => rfl
  | cons p l ih =>
    obtain ⟨t, w⟩ := p
    cases t <;> simp +decide [List.filter_cons, List.count_cons] at ih ⊢ <;> omega

/-- Without mutual exclusion an update is lost: when two calls of `push_back`
have read the same end of the vector, the second store overwrites the first. -/
theorem overlapping_push_back_loses_update :
    (run overlapping [.vp1, .vp2]).map (·.vec) = some [0] ∧
    (run overlapping [.vp1, .vp2]).map (fun s => pushedBy s .vp1) = some [] := by
  decide

/-- While a thread is inside `push_back` or `print` the others wait at the
`lock_guard`: in `contended`, `vp1` owns `m` and has read the end of the vector,
and neither `vp2` nor `vp3` can take a step. -/
theorem lock_guard_blocks_other_threads :
    run init contendedSchedule = some contended ∧ contended.m = some .vp1 ∧
    contended.vp1.pc = .pushWrite ∧ contended.vp2.pc = .pushLock ∧
    contended.vp3.pc = .pushLock ∧
    func contended .vp2 = none ∧ func contended .vp3 = none := by
  decide

/-- C25. No lost update: in every reachable state in which the three threads have
returned, `vec` holds 15 elements, each of the values 0 to 4 occurs exactly three
times, and the values pushed by each thread stand in `vec` in the order
0, 1, 2, 3, 4. -/
theorem no_lost_update (s : State) (h : Reachable s) (hd : allDone s = true) :
    s.vec.length = 15 ∧
    (∀ v ∈ [(0 : Int), 1, 2, 3, 4], s.vec.count v = 3) ∧
    s.vec = s.pushed.map Prod.snd ∧
    ∀ t, pushedBy s t = [0, 1, 2, 3, 4] := by
  have hp := h.pushes
  have hall : ∀ t, pushedBy s t = [0, 1, 2, 3, 4] := by
    intro t
    have hk := hp.iOk t
    have hpc : (s.get t).pc = .done := by
      simp only [allDone, Bool.and_eq_true, decide_eq_true_eq] at hd
      cases t
      · exact hd.1.1
      · exact hd.1.2
      · exact hd.2
    have hi : (s.get t).i = 5 := by
      simpa [Local.iOk, hpc] using hk
    rw [hp.own t, Local.pushes, hpc, hi]
    rfl
  have h1 := hall .vp1
  have h2 := hall .vp2
  have h3 := hall .vp3
  simp only [pushedBy] at h1 h2 h3
  refine ⟨?_, ?_, hp.vec, hall⟩
  · rw [hp.vec, length_eq_sum_pushedBy, h1, h2, h3]
    rfl
  · intro v hv
    rw [hp.vec, count_eq_sum_pushedBy, h1, h2, h3]
    simp only [List.mem_cons, List.mem_singleton, List.not_mem_nil, or_false] at hv
    rcases hv with rfl | rfl | rfl | rfl | rfl <;> rfl

set_option maxRecDepth 100000 in
theorem roundRobin_reachable : Reachable roundRobin :=
  Reachable.of_run roundRobinSchedule Reachable.start (by decide)

set_option maxRecDepth 100000 in
theorem no_lost_update_witness :
    allDone roundRobin = true ∧
      roundRobin.vec = [0, 0, 0, 1, 1, 1, 2, 2, 2, 3, 3, 3, 4, 4, 4] ∧
      roundRobin.vec.length = 15 ∧ pushedBy roundRobin .vp2 = [0, 1, 2, 3, 4] :=
  ⟨by decide, by decide,
    (no_lost_update roundRobin roundRobin_reachable (by decide)).1,
    (no_lost_update roundRobin roundRobin_reachable (by decide)).2.2.2 .vp2⟩

end ThreadSafeVector
